import Mathlib

/-!
# web3-shop-go: the HTTP-to-chain bridge of `main.go`

A shallow embedding of `productsHandler` and `purchaseHandler`.

* The blockchain client library (ABI `Pack`/`Unpack`, the RPC methods of the client,
  `SignTx`, address and hash rendering) and `encoding/json` decoding are not part of the
  program: they are the fields of `Lib`, arbitrary functions.  RPC methods read and
  change a node state `W` that the handlers thread through.
* Every fallible library call a handler makes is appended, with its result, to the
  `trace` of the handler state, so that statements about which calls are made, in which
  order and how often, are statements about that list.
* `math/big` (`SetString` in base 10, `String`, `Int64`) is modelled concretely, and so is
  the one library call that can panic, `types.LatestSignerForChainID`, which rejects a
  chain id that is not positive.
* `log.Printf` lines are not modelled.
-/

namespace Shop

/-! ## Basic data -/

abbrev Bytes := List Nat
abbrev Address := Nat
abbrev PrivateKey := Nat
abbrev Err := String

/-- Result of a fallible library call (`value, err`). -/
inductive Res (α : Type) where
  | ok (a : α)
  | error (e : Err)
  deriving DecidableEq, Repr

/-- Dynamic values as returned by `Unpack` and accepted by `Pack` (Go `interface{}`). -/
inductive AbiValue where
  | bigInt (v : Int)
  | address (a : Address)
  | str (s : String)
  | uint8 (v : Nat)
  | bool (b : Bool)
  deriving DecidableEq, Repr

/-! ## The constant `contractABI` -/

inductive AbiType where
  | uint256 | uint8 | address | string | bool
  deriving DecidableEq, Repr

inductive EntryType where
  | constructor | event | function
  deriving DecidableEq, Repr

structure Argument where
  internalType : String
  name : String
  type : AbiType
  indexed : Bool := false
  deriving DecidableEq, Repr

structure AbiEntry where
  type : EntryType
  name : String := ""
  inputs : List Argument := []
  outputs : List Argument := []
  stateMutability : String := ""
  anonymous : Bool := false
  deriving DecidableEq, Repr

abbrev ABI := List AbiEntry

def contractAddress : String := "0x5fbdb2315678afecb367f032d93f642f64180aa3"

def rpcURL : String := "http://127.0.0.1:8545"

def privateKeyHex : String :=
  "ac0974bec39a17e36ba4a6b4d238ff944bacb478cbed5efcae784d7bf4f2ff80"

def contractABI : ABI := [
  { type := .constructor, inputs := [], stateMutability := "nonpayable" },
  { type := .event, anonymous := false, name := "ProductDisputed",
    inputs := [⟨"uint256", "id", .uint256, false⟩] },
  { type := .event, anonymous := false, name := "ProductListed",
    inputs := [⟨"uint256", "id", .uint256, false⟩, ⟨"string", "name", .string, false⟩,
               ⟨"uint256", "price", .uint256, false⟩, ⟨"address", "seller", .address, false⟩] },
  { type := .event, anonymous := false, name := "ProductPurchased",
    inputs := [⟨"uint256", "id", .uint256, false⟩, ⟨"address", "buyer", .address, false⟩] },
  { type := .event, anonymous := false, name := "ProductRefunded",
    inputs := [⟨"uint256", "id", .uint256, false⟩, ⟨"address", "buyer", .address, false⟩] },
  { type := .function, name := "disputeProduct", stateMutability := "nonpayable",
    inputs := [⟨"uint256", "_id", .uint256, false⟩], outputs := [] },
  { type := .function, name := "listProduct", stateMutability := "nonpayable",
    inputs := [⟨"string", "_name", .string, false⟩, ⟨"string", "_description", .string, false⟩,
               ⟨"uint256", "_price", .uint256, false⟩],
    outputs := [] },
  { type := .function, name := "owner", stateMutability := "view",
    inputs := [], outputs := [⟨"address", "", .address, false⟩] },
  { type := .function, name := "productCount", stateMutability := "view",
    inputs := [], outputs := [⟨"uint256", "", .uint256, false⟩] },
  { type := .function, name := "products", stateMutability := "view",
    inputs := [⟨"uint256", "", .uint256, false⟩],
    outputs := [⟨"uint256", "id", .uint256, false⟩,
                ⟨"address payable", "seller", .address, false⟩,
                ⟨"string", "name", .string, false⟩,
                ⟨"string", "description", .string, false⟩,
                ⟨"uint256", "price", .uint256, false⟩,
                ⟨"enum Ecommerce.ProductStatus", "status", .uint8, false⟩,
                ⟨"address", "buyer", .address, false⟩] },
  { type := .function, name := "purchaseProduct", stateMutability := "payable",
    inputs := [⟨"uint256", "_id", .uint256, false⟩], outputs := [] },
  { type := .function, name := "resolveDispute", stateMutability := "nonpayable",
    inputs := [⟨"uint256", "_id", .uint256, false⟩, ⟨"bool", "refund", .bool, false⟩],
    outputs := [] }
]

/-- The function entry of an ABI with the given name, if any. -/
def ABI.method (abi : ABI) (name : String) : Option AbiEntry :=
  abi.find? (fun e => e.type == .function && e.name == name)

/-! ## The Go structs `Product` and `ProductRaw` -/

structure Product where
  ID : Int
  Seller : String
  Name : String
  Description : String
  Price : String
  Status : Nat
  Buyer : String
  deriving DecidableEq, Repr

/-- Go types of struct fields, as far as the two structs use them. -/
inductive GoType where
  | bigIntPtr | commonAddress | string | uint8 | int | bool
  deriving DecidableEq, Repr

/-- The field list of `ProductRaw`, in declaration order. -/
def ProductRaw.fields : List (String × GoType) :=
  [("ID", .bigIntPtr), ("Seller", .commonAddress), ("Name", .string),
   ("Description", .string), ("Price", .bigIntPtr), ("Status", .uint8),
   ("Buyer", .commonAddress)]

/-- The field list of `Product` with the JSON key of each field, in declaration order. -/
def Product.fields : List (String × GoType × String) :=
  [("ID", .int, "id"), ("Seller", .string, "seller"), ("Name", .string, "name"),
   ("Description", .string, "description"), ("Price", .string, "price"),
   ("Status", .uint8, "status"), ("Buyer", .string, "buyer")]

/-- The Go type in which the ABI library hands back a value of an ABI type. -/
def AbiType.goType : AbiType → GoType
  | .uint256 => .bigIntPtr
  | .uint8 => .uint8
  | .address => .commonAddress
  | .string => .string
  | .bool => .bool

/-! ## Machine integers and `math/big` -/

/-- Reinterpretation of an integer as a two's-complement `int64`. -/
def wrapInt64 (x : Int) : Int := (x + 2 ^ 63) % 2 ^ 64 - 2 ^ 63

/-- Model of `(*big.Int).Int64`: the low 64 bits of the magnitude as an `int64`, negated
(in `int64`) when the number is negative. -/
def bigInt64 (x : Int) : Int :=
  let v := wrapInt64 ((x.natAbs % 2 ^ 64 : Nat) : Int)
  if x < 0 then wrapInt64 (-v) else v

/-- Model of `(*big.Int).String`: the decimal numeral, with a leading `-` when negative. -/
def bigString : Int → String
  | .ofNat m => Nat.repr m
  | .negSucc m => "-" ++ Nat.repr (m + 1)

/-- Value of a decimal digit character, if it is one. -/
def digitValue (c : Char) : Option Nat :=
  if '0' ≤ c ∧ c ≤ '9' then some (c.toNat - '0'.toNat) else none

/-- Digits scanned left to right onto an accumulator; `none` at the first non-digit. -/
def scanDigits : List Char → Nat → Option Nat
  | [], acc => some acc
  | c :: cs, acc =>
    match digitValue c with
    | some d => scanDigits cs (acc * 10 + d)
    | none => none

/-- Model of `scanSign` of `math/big`: an optional leading `+` or `-` is consumed; the
flag says whether it was `-`. -/
def scanSign : List Char → Bool × List Char
  | '-' :: cs => (true, cs)
  | '+' :: cs => (false, cs)
  | cs => (false, cs)

/-- Model of `new(big.Int).SetString(s, 10)`: an optional sign, then one or more decimal
digits, and nothing else; `none` is the `ok = false` result. -/
def bigSetString10 (s : String) : Option Int :=
  let sr := scanSign s.data
  match sr.2 with
  | [] => none
  | _ :: _ =>
    match scanDigits sr.2 0 with
    | some n => some (if sr.1 then -(n : Int) else (n : Int))
    | none => none

/-- A list of characters whose first element is a decimal digit. -/
def HeadIsDigit (l : List Char) : Prop :=
  ∃ c rest, l = c :: rest ∧ (digitValue c).isSome = true

/-! ## Messages, transactions, requests and responses -/

/-- The fields of `ethereum.CallMsg` that the handlers set; the others stay zero. -/
structure CallMsg where
  From : Address
  To : Option Address
  Value : Option Int := none
  Data : Bytes
  deriving DecidableEq, Repr

/-- The arguments of `types.NewTransaction`. -/
structure Transaction where
  nonce : Nat
  to_ : Address
  amount : Int
  gasLimit : Nat
  gasPrice : Int
  data : Bytes
  deriving DecidableEq, Repr

def NewTransaction (nonce : Nat) (to_ : Address) (amount : Int) (gasLimit : Nat)
    (gasPrice : Int) (data : Bytes) : Transaction :=
  ⟨nonce, to_, amount, gasLimit, gasPrice, data⟩

/-- A transaction together with signature values, as `types.SignTx` returns it. -/
structure SignedTx where
  tx : Transaction
  v : Int
  r : Int
  s : Int
  deriving DecidableEq, Repr

/-- The signer that `types.LatestSignerForChainID` builds for a chain id. -/
structure Signer where
  chainID : Int
  deriving DecidableEq, Repr

/-- Model of `types.LatestSignerForChainID(chainID)`: the constructor of the signer panics
on a chain id that is not positive; `none` is that panic. -/
def LatestSignerForChainID (chainID : Int) : Option Signer :=
  if chainID ≤ 0 then none else some ⟨chainID⟩

/-- Handle returned by `ethclient.Dial`. -/
structure Client where
  url : String
  deriving DecidableEq, Repr

/-- The local type `Req` of `purchaseHandler`. -/
structure Req where
  ProductID : Int
  Amount : String
  deriving DecidableEq, Repr

structure Request where
  Method : String
  RemoteAddr : String := ""
  Body : String := ""
  deriving DecidableEq, Repr

inductive Json where
  | num (n : Int)
  | str (s : String)
  | arr (xs : List Json)
  | obj (kvs : List (String × Json))

/-- What was written to the response body. -/
inductive BodyChunk where
  | text (s : String)
  | json (j : Json)

/-- State of an `http.ResponseWriter`: the header map, the status line once written and
the body written so far. -/
structure ResponseWriter where
  header : List (String × String) := []
  status : Option Nat := none
  body : List BodyChunk := []

def StatusOK : Nat := 200
def StatusBadRequest : Nat := 400
def StatusInternalServerError : Nat := 500

/-- Model of `w.Header().Set(k, v)`. -/
def ResponseWriter.headerSet (w : ResponseWriter) (k v : String) : ResponseWriter :=
  { w with header := w.header.filter (fun kv => kv.1 != k) ++ [(k, v)] }

/-- Model of `w.Header().Del(k)`. -/
def ResponseWriter.headerDel (w : ResponseWriter) (k : String) : ResponseWriter :=
  { w with header := w.header.filter (fun kv => kv.1 != k) }

/-- Model of `w.WriteHeader(code)`: the first status written stands. -/
def ResponseWriter.WriteHeader (w : ResponseWriter) (code : Nat) : ResponseWriter :=
  match w.status with
  | some _ => w
  | none => { w with status := some code }

/-- Model of `w.Write`: an implicit `WriteHeader(200)` when no status was written yet. -/
def ResponseWriter.write (w : ResponseWriter) (c : BodyChunk) : ResponseWriter :=
  let w1 := w.WriteHeader StatusOK
  { w1 with body := w1.body ++ [c] }

/-- Model of `http.Error(w, msg, code)`. -/
def httpError (w : ResponseWriter) (msg : String) (code : Nat) : ResponseWriter :=
  let w1 := w.headerDel "Content-Length"
  let w2 := w1.headerSet "Content-Type" "text/plain; charset=utf-8"
  let w3 := w2.headerSet "X-Content-Type-Options" "nosniff"
  let w4 := w3.WriteHeader code
  w4.write (.text (msg ++ "\n"))

/-- The status code the client receives: 200 when the handler wrote none. -/
def ResponseWriter.statusCode (w : ResponseWriter) : Nat := w.status.getD StatusOK

/-- JSON encoding of a `Product` (struct fields in declaration order, keys from the tags). -/
def Product.toJson (p : Product) : Json :=
  .obj [("id", .num p.ID), ("seller", .str p.Seller), ("name", .str p.Name),
        ("description", .str p.Description), ("price", .str p.Price),
        ("status", .num p.Status), ("buyer", .str p.Buyer)]

/-- Model of `json.NewEncoder(w).Encode(products)` for a (non-nil) `[]Product`. -/
def encodeProducts (w : ResponseWriter) (ps : List Product) : ResponseWriter :=
  w.write (.json (.arr (ps.map Product.toJson)))

/-- Model of `json.NewEncoder(w).Encode(map[string]string{...})` for the success map of
`purchaseHandler` (map keys are emitted sorted). -/
def encodeSuccess (w : ResponseWriter) (txHash : String) : ResponseWriter :=
  w.write (.json (.obj [("status", .str "success"), ("txHash", .str txHash)]))

/-! ## The library and the handler state -/

/-- One fallible library call with its arguments and its result. -/
inductive Event where
  | pack (name : String) (args : List AbiValue) (res : Res Bytes)
  | unpack (name : String) (data : Bytes) (res : Res (List AbiValue))
  | callContract (msg : CallMsg) (res : Res Bytes)
  | pendingNonceAt (account : Address) (res : Res Nat)
  | suggestGasPrice (res : Res Int)
  | estimateGas (msg : CallMsg) (res : Res Nat)
  | networkID (res : Res Int)
  | signTx (tx : Transaction) (signer : Signer) (key : PrivateKey) (res : Res SignedTx)
  | sendTransaction (tx : SignedTx) (err : Option Err)
  deriving DecidableEq, Repr

def Res.failed {α : Type} : Res α → Bool
  | .ok _ => false
  | .error _ => true

/-- Whether the library call returned an error. -/
def Event.failed : Event → Bool
  | .pack _ _ r => r.failed
  | .unpack _ _ r => r.failed
  | .callContract _ r => r.failed
  | .pendingNonceAt _ r => r.failed
  | .suggestGasPrice r => r.failed
  | .estimateGas _ r => r.failed
  | .networkID r => r.failed
  | .signTx _ _ _ r => r.failed
  | .sendTransaction _ e => e.isSome

/-- The external libraries: `abi.ABI` methods, the RPC methods of `ethclient.Client` (over
a node state `W`), `types.SignTx`, the renderings
`common.Address.Hex` and `Transaction.Hash().Hex()`, and `encoding/json` decoding of the
request body into `Req`. -/
structure Lib (W : Type) where
  Pack : ABI → String → List AbiValue → Res Bytes
  Unpack : ABI → String → Bytes → Res (List AbiValue)
  CallContract : Client → CallMsg → W → Res Bytes × W
  PendingNonceAt : Client → Address → W → Res Nat × W
  SuggestGasPrice : Client → W → Res Int × W
  EstimateGas : Client → CallMsg → W → Res Nat × W
  NetworkID : Client → W → Res Int × W
  SignTx : Transaction → Signer → PrivateKey → Res SignedTx
  SendTransaction : Client → SignedTx → W → Option Err × W
  AddressHex : Address → String
  HashHex : SignedTx → String
  DecodeReq : String → Res Req

/-- The package-level variables of `main.go`. -/
structure Globals where
  client : Client
  parsedABI : ABI
  fromKey : PrivateKey
  fromAddr : Address
  contract : Address
  deriving DecidableEq, Repr

/-- What a handler can read and change: the package-level variables, the node behind the
client, and the log of library calls made so far. -/
structure St (W : Type) where
  globals : Globals
  world : W
  trace : List Event := []

variable {W : Type}

/-- Appends a library call to the log. -/
def St.log (st : St W) (e : Event) : St W := { st with trace := st.trace ++ [e] }

/-- The call `parsedABI.Pack(name, args...)`. -/
def doPack (lib : Lib W) (name : String) (args : List AbiValue) (st : St W) :
    Res Bytes × St W :=
  let r := lib.Pack st.globals.parsedABI name args
  (r, st.log (.pack name args r))

/-- The call `parsedABI.Unpack(name, data)`. -/
def doUnpack (lib : Lib W) (name : String) (data : Bytes) (st : St W) :
    Res (List AbiValue) × St W :=
  let r := lib.Unpack st.globals.parsedABI name data
  (r, st.log (.unpack name data r))

/-- The call `client.CallContract(ctx, msg, nil)`. -/
def doCallContract (lib : Lib W) (msg : CallMsg) (st : St W) : Res Bytes × St W :=
  let r := lib.CallContract st.globals.client msg st.world
  (r.1, { st with world := r.2, trace := st.trace ++ [.callContract msg r.1] })

/-- The call `client.PendingNonceAt(ctx, account)`. -/
def doPendingNonceAt (lib : Lib W) (account : Address) (st : St W) : Res Nat × St W :=
  let r := lib.PendingNonceAt st.globals.client account st.world
  (r.1, { st with world := r.2, trace := st.trace ++ [.pendingNonceAt account r.1] })

/-- The call `client.SuggestGasPrice(ctx)`. -/
def doSuggestGasPrice (lib : Lib W) (st : St W) : Res Int × St W :=
  let r := lib.SuggestGasPrice st.globals.client st.world
  (r.1, { st with world := r.2, trace := st.trace ++ [.suggestGasPrice r.1] })

/-- The call `client.EstimateGas(ctx, msg)`. -/
def doEstimateGas (lib : Lib W) (msg : CallMsg) (st : St W) : Res Nat × St W :=
  let r := lib.EstimateGas st.globals.client msg st.world
  (r.1, { st with world := r.2, trace := st.trace ++ [.estimateGas msg r.1] })

/-- The call `client.NetworkID(ctx)`. -/
def doNetworkID (lib : Lib W) (st : St W) : Res Int × St W :=
  let r := lib.NetworkID st.globals.client st.world
  (r.1, { st with world := r.2, trace := st.trace ++ [.networkID r.1] })

/-- The call `types.SignTx(tx, signer, fromKey)`. -/
def doSignTx (lib : Lib W) (tx : Transaction) (signer : Signer) (st : St W) :
    Res SignedTx × St W :=
  let r := lib.SignTx tx signer st.globals.fromKey
  (r, st.log (.signTx tx signer st.globals.fromKey r))

/-- The call `client.SendTransaction(ctx, signedTx)`. -/
def doSendTransaction (lib : Lib W) (tx : SignedTx) (st : St W) : Option Err × St W :=
  let r := lib.SendTransaction st.globals.client tx st.world
  (r.1, { st with world := r.2, trace := st.trace ++ [.sendTransaction tx r.1] })

/-! ## `productsHandler` -/

/-- How a handler run ends: it returns with the response writer in some state, or it
panics (a failed type assertion, a rejected chain id) and no response is written. -/
inductive Outcome where
  | done (w : ResponseWriter)
  | panic

/-- The struct literal `Product{...}` of `productsHandler` with its seven type assertions
on the unpacked values; `none` when an assertion fails. -/
def decodeProduct (lib : Lib W) (out : List AbiValue) : Option Product :=
  match out with
  | [.bigInt id, .address seller, .str name, .str description, .bigInt price,
     .uint8 status, .address buyer] =>
    some { ID := bigInt64 id
           Seller := lib.AddressHex seller
           Name := name
           Description := description
           Price := bigString price
           Status := status
           Buyer := lib.AddressHex buyer }
  | _ => none

/-- One pass through the body of the `for` loop for index `i`.  The first component is the
slice `products` after the pass (`continue` leaves it as it was), `none` on a panic. -/
def productsBody (lib : Lib W) (i : Int) (products : List Product) (st : St W) :
    Option (List Product) × St W :=
  match doPack lib "products" [.bigInt i] st with
  | (.error _, st1) => (some products, st1)
  | (.ok data, st1) =>
    let msg : CallMsg :=
      { From := st1.globals.fromAddr, To := some st1.globals.contract, Data := data }
    match doCallContract lib msg st1 with
    | (.error _, st2) => (some products, st2)
    | (.ok res, st2) =>
      if res.length = 0 then (some products, st2)
      else
        match doUnpack lib "products" res st2 with
        | (.error _, st3) => (some products, st3)
        | (.ok out, st3) =>
          if out.length ≠ 7 then (some products, st3)
          else
            match decodeProduct lib out with
            | none => (none, st3)
            | some p => (some (products ++ [p]), st3)

/-- The loop `for i := int64(1); i <= total; i++`, entered with the current `i`.  The
counter is an `int64` and wraps.  The outer `none` means the fuel ran out. -/
def productsLoop (lib : Lib W) (total : Int) :
    Nat → Int → List Product → St W → Option (Option (List Product) × St W)
  | 0, _, _, _ => none
  | fuel + 1, i, products, st =>
    if i ≤ total then
      match productsBody lib i products st with
      | (none, st1) => some (none, st1)
      | (some products1, st1) => productsLoop lib total fuel (wrapInt64 (i + 1)) products1 st1
    else some (some products, st)

/-- The handler of `/products`.  `fuel` bounds the number of loop tests. -/
def productsHandler (lib : Lib W) (fuel : Nat) (w : ResponseWriter) (_r : Request)
    (st : St W) : Option (Outcome × St W) :=
  match doPack lib "productCount" [] st with
  | (.error _, st1) =>
    some (.done (httpError w "internal error" StatusInternalServerError), st1)
  | (.ok data, st1) =>
    let msg : CallMsg :=
      { From := st1.globals.fromAddr, To := some st1.globals.contract, Data := data }
    match doCallContract lib msg st1 with
    | (.error _, st2) =>
      some (.done (httpError w "internal error" StatusInternalServerError), st2)
    | (.ok result, st2) =>
      match doUnpack lib "productCount" result st2 with
      | (.error _, st3) =>
        some (.done (httpError w "internal error" StatusInternalServerError), st3)
      | (.ok [], st3) =>
        some (.done (httpError w "internal error" StatusInternalServerError), st3)
      | (.ok (.bigInt c :: _), st3) =>
        let total := bigInt64 c
        if total = 0 then
          some (.done (encodeProducts (w.headerSet "Content-Type" "application/json") []), st3)
        else
          match productsLoop lib total fuel 1 [] st3 with
          | none => none
          | some (none, st4) => some (.panic, st4)
          | some (some products, st4) =>
            some (.done (encodeProducts (w.headerSet "Content-Type" "application/json")
              products), st4)
      | (.ok (_ :: _), st3) => some (.panic, st3)

/-! ## `purchaseHandler` -/

/-- The handler of `/purchase`. -/
def purchaseHandler (lib : Lib W) (w : ResponseWriter) (r : Request) (st : St W) :
    Outcome × St W :=
  let w := w.headerSet "Access-Control-Allow-Origin" "*"
  let w := w.headerSet "Access-Control-Allow-Methods" "POST, OPTIONS"
  let w := w.headerSet "Access-Control-Allow-Headers" "Content-Type"
  if r.Method = "OPTIONS" then (.done (w.WriteHeader StatusOK), st)
  else
    match lib.DecodeReq r.Body with
    | .error _ => (.done (httpError w "invalid request" StatusBadRequest), st)
    | .ok req =>
      match bigSetString10 req.Amount with
      | none => (.done (httpError w "invalid amount" StatusBadRequest), st)
      | some amount =>
        match doPack lib "purchaseProduct" [.bigInt req.ProductID] st with
        | (.error err, st1) =>
          (.done (httpError w ("pack tx data failed: " ++ err) StatusInternalServerError), st1)
        | (.ok data, st1) =>
          match doPendingNonceAt lib st1.globals.fromAddr st1 with
          | (.error err, st2) =>
            (.done (httpError w ("get nonce failed: " ++ err) StatusInternalServerError), st2)
          | (.ok nonce, st2) =>
            match doSuggestGasPrice lib st2 with
            | (.error err, st3) =>
              (.done (httpError w ("get gas price failed: " ++ err)
                StatusInternalServerError), st3)
            | (.ok gasPrice, st3) =>
              let msg : CallMsg :=
                { From := st3.globals.fromAddr, To := some st3.globals.contract,
                  Value := some amount, Data := data }
              let (gasLimit, st4) : Nat × St W :=
                match doEstimateGas lib msg st3 with
                | (.error _, st4) => (1000000, st4)
                | (.ok gasLimit, st4) => (gasLimit, st4)
              match doNetworkID lib st4 with
              | (.error err, st5) =>
                (.done (httpError w ("get chain id failed: " ++ err)
                  StatusInternalServerError), st5)
              | (.ok chainID, st5) =>
                let tx := NewTransaction nonce st5.globals.contract amount gasLimit gasPrice data
                match LatestSignerForChainID chainID with
                | none => (.panic, st5)
                | some signer =>
                  match doSignTx lib tx signer st5 with
                  | (.error err, st6) =>
                    (.done (httpError w ("sign tx failed: " ++ err)
                      StatusInternalServerError), st6)
                  | (.ok signedTx, st6) =>
                    match doSendTransaction lib signedTx st6 with
                    | (some err, st7) =>
                      (.done (httpError w ("send tx failed: " ++ err)
                        StatusInternalServerError), st7)
                    | (none, st7) =>
                      (.done (encodeSuccess (w.headerSet "Content-Type" "application/json")
                        (lib.HashHex signedTx)), st7)

/-! ## Shapes of runs and sample libraries -/

/-- The gas limit `purchaseHandler` uses after `EstimateGas` returned `rg`. -/
def gasLimitOf : Res Nat → Nat
  | .ok gasLimit => gasLimit
  | .error _ => 1000000

/-- The response writer after the three CORS headers of `purchaseHandler` are set. -/
def corsHeaders (w : ResponseWriter) : ResponseWriter :=
  ((w.headerSet "Access-Control-Allow-Origin" "*").headerSet
    "Access-Control-Allow-Methods" "POST, OPTIONS").headerSet
    "Access-Control-Allow-Headers" "Content-Type"

/-- The eight ways a run of `purchaseHandler` can go once the request is accepted. -/
def PurchaseShape (lib : Lib W) (g : Globals) (w : ResponseWriter) (req : Req) (amount : Int)
    (out : Outcome) (tr : List Event) : Prop :=
  (∃ e, tr = [.pack "purchaseProduct" [.bigInt req.ProductID] (.error e)] ∧
    out = .done (httpError (corsHeaders w) ("pack tx data failed: " ++ e) 500)) ∨
  ∃ data, ∃ p : Event, p = .pack "purchaseProduct" [.bigInt req.ProductID] (.ok data) ∧
  ((∃ e, tr = [p, .pendingNonceAt g.fromAddr (.error e)] ∧
    out = .done (httpError (corsHeaders w) ("get nonce failed: " ++ e) 500)) ∨
  ∃ nonce, ∃ n : Event, n = .pendingNonceAt g.fromAddr (.ok nonce) ∧
  ((∃ e, tr = [p, n, .suggestGasPrice (.error e)] ∧
    out = .done (httpError (corsHeaders w) ("get gas price failed: " ++ e) 500)) ∨
  ∃ gasPrice rg, ∃ s eg : Event, s = .suggestGasPrice (.ok gasPrice) ∧
    eg = .estimateGas ⟨g.fromAddr, some g.contract, some amount, data⟩ rg ∧
  ((∃ e, tr = [p, n, s, eg, .networkID (.error e)] ∧
    out = .done (httpError (corsHeaders w) ("get chain id failed: " ++ e) 500)) ∨
  ∃ chainID, ∃ c : Event, ∃ tx : Transaction, c = .networkID (.ok chainID) ∧
    tx = ⟨nonce, g.contract, amount, gasLimitOf rg, gasPrice, data⟩ ∧
  ((chainID ≤ 0 ∧ tr = [p, n, s, eg, c] ∧ out = .panic) ∨
  (0 < chainID ∧
  ((∃ e, tr = [p, n, s, eg, c, .signTx tx ⟨chainID⟩ g.fromKey (.error e)] ∧
    out = .done (httpError (corsHeaders w) ("sign tx failed: " ++ e) 500)) ∨
  ∃ signedTx, ∃ sg : Event, sg = .signTx tx ⟨chainID⟩ g.fromKey (.ok signedTx) ∧
  ((∃ e, tr = [p, n, s, eg, c, sg, .sendTransaction signedTx (some e)] ∧
    out = .done (httpError (corsHeaders w) ("send tx failed: " ++ e) 500)) ∨
  (tr = [p, n, s, eg, c, sg, .sendTransaction signedTx none] ∧
    out = .done (encodeSuccess ((corsHeaders w).headerSet "Content-Type" "application/json")
      (lib.HashHex signedTx))))))))))

/-- Whether the event is a call of `EstimateGas`. -/
def Event.isEstimateGas : Event → Bool
  | .estimateGas _ _ => true
  | _ => false

/-- Whether the event is a call of `SendTransaction`. -/
def Event.isSendTransaction : Event → Bool
  | .sendTransaction _ _ => true
  | _ => false

/-- Whether the event is a call of `PendingNonceAt`. -/
def Event.isPendingNonceAt : Event → Bool
  | .pendingNonceAt _ _ => true
  | _ => false

/-- Whether the event is a call of `SuggestGasPrice`. -/
def Event.isSuggestGasPrice : Event → Bool
  | .suggestGasPrice _ => true
  | _ => false

/-- Whether the event is a call of `NetworkID`. -/
def Event.isNetworkID : Event → Bool
  | .networkID _ => true
  | _ => false

/-- Whether the event is not a `NetworkID` call that returned a chain id below 1. -/
def Event.chainIDPositive : Event → Bool
  | .networkID (.ok chainID) => decide (0 < chainID)
  | _ => true

/-! ## Reading the log of `productsHandler` -/

/-- The `Pack` calls of a log, in order: method name and arguments. -/
def packCalls (tr : List Event) : List (String × List AbiValue) :=
  tr.filterMap (fun e => match e with
    | .pack name args _ => some (name, args)
    | _ => none)

/-- The `CallContract` calls of a log, in order, each with its result. -/
def callOutcomes (tr : List Event) : List (CallMsg × Res Bytes) :=
  tr.filterMap (fun e => match e with
    | .callContract msg res => some (msg, res)
    | _ => none)

/-- The message for the method call `name(args...)`: a `CallMsg` from the sender to the
contract whose data is the result of `Pack`; there is none when `Pack` fails. -/
def msgOfPack (lib : Lib W) (g : Globals) (c : String × List AbiValue) : Option CallMsg :=
  match lib.Pack g.parsedABI c.1 c.2 with
  | .ok data => some { From := g.fromAddr, To := some g.contract, Data := data }
  | .error _ => none

/-- The message of the `products(i)` call. -/
def productsMsg (lib : Lib W) (g : Globals) (i : Int) : Option CallMsg :=
  msgOfPack lib g ("products", [.bigInt i])

/-- The response entry that a `products(i)` call contributes: one `Product` when the call
succeeded, returned non-empty data, and the data unpacked to 7 values; none otherwise. -/
def entryOf (lib : Lib W) (g : Globals) (c : CallMsg × Res Bytes) : Option Product :=
  match c.2 with
  | .error _ => none
  | .ok res =>
    if res.length = 0 then none
    else
      match lib.Unpack g.parsedABI "products" res with
      | .error _ => none
      | .ok out => if out.length = 7 then decodeProduct lib out else none

/-- The list `i, i + 1, ..., i + k - 1`. -/
def indices (i : Int) : Nat → List Int
  | 0 => []
  | k + 1 => i :: indices (i + 1) k

/-- The handler state reached by the loop of `productsHandler` after at most `fuel` tests of
its condition: the same loop as `productsLoop`, cut off where the fuel ends instead of giving
no result. -/
def productsLoopLog (lib : Lib W) (total : Int) :
    Nat → Int → List Product → St W → St W
  | 0, _, _, st => st
  | fuel + 1, i, products, st =>
    if i ≤ total then
      match productsBody lib i products st with
      | (none, st1) => st1
      | (some products1, st1) =>
        productsLoopLog lib total fuel (wrapInt64 (i + 1)) products1 st1
    else st

/-- The count that the log shows `Unpack("productCount", _)` to have returned, if any. -/
def loggedCount (tr : List Event) : Option Int :=
  tr.findSome? (fun e => match e with
    | .unpack name _ (.ok (.bigInt c :: _)) => if name = "productCount" then some c else none
    | _ => none)

/-- The library hands back the `products` outputs in the Go types the handler asserts:
every 7-tuple that `Unpack` returns for `products` passes the seven type assertions. -/
def UnpackTyped (lib : Lib W) (abi : ABI) : Prop :=
  ∀ data out, lib.Unpack abi "products" data = .ok out → out.length = 7 →
    (decodeProduct lib out).isSome = true

/-- The `productCount` stage fails: `Pack`, `CallContract` or `Unpack` returns an error, or
`Unpack` returns no value. -/
def ProductCountFails (lib : Lib W) (g : Globals) (wd : W) : Prop :=
  match lib.Pack g.parsedABI "productCount" [] with
  | .error _ => True
  | .ok data =>
    match (lib.CallContract g.client
        { From := g.fromAddr, To := some g.contract, Data := data } wd).1 with
    | .error _ => True
    | .ok result =>
      match lib.Unpack g.parsedABI "productCount" result with
      | .error _ => True
      | .ok [] => True
      | .ok (_ :: _) => False

/-- Sample package-level state. -/
def demoGlobals : Globals :=
  { client := ⟨rpcURL⟩, parsedABI := contractABI, fromKey := 7, fromAddr := 11, contract := 13 }

/-- A sample library over a node state that counts the RPC calls served.  Every call
succeeds; the contract reports two products. -/
def demoLib : Lib Nat where
  Pack := fun _ name args =>
    .ok (name.length :: args.map (fun a => match a with | .bigInt v => v.toNat | _ => 0))
  Unpack := fun _ name data =>
    if name = "productCount" then .ok [.bigInt 2]
    else .ok [.bigInt (data.getD 1 0), .address 21, .str "pen", .str "a pen", .bigInt 1000,
              .uint8 0, .address 0]
  CallContract := fun _ msg n => (.ok msg.Data, n + 1)
  PendingNonceAt := fun _ _ n => (.ok 4, n + 1)
  SuggestGasPrice := fun _ n => (.ok 5, n + 1)
  EstimateGas := fun _ _ n => (.ok 21000, n + 1)
  NetworkID := fun _ n => (.ok 31337, n + 1)
  SignTx := fun tx signer key => .ok ⟨tx, signer.chainID, key, 1⟩
  SendTransaction := fun _ _ n => (none, n + 1)
  AddressHex := fun a => "0x" ++ Nat.repr a
  HashHex := fun tx => "0x" ++ Nat.repr tx.tx.nonce
  DecodeReq := fun body =>
    if body = "\x7b\"productId\":1,\"amount\":\"1000\"\x7d" then .ok ⟨1, "1000"⟩
    else if body = "\x7b\"productId\":1,\"amount\":\"1e3\"\x7d" then .ok ⟨1, "1e3"⟩
    else .error "invalid character"

/-- The sample library with a node whose `EstimateGas` fails. -/
def demoLibNoEstimate : Lib Nat :=
  { demoLib with EstimateGas := fun _ _ n => (.error "execution reverted", n + 1) }

/-- The sample library with a node that rejects the transaction. -/
def demoLibNoSend : Lib Nat :=
  { demoLib with SendTransaction := fun _ _ n => (some "nonce too low", n + 1) }

/-- The sample library with a node that reports network id 0. -/
def demoLibChainZero : Lib Nat :=
  { demoLib with NetworkID := fun _ n => (.ok 0, n + 1) }

/-- The sample library with a node whose `EstimateGas` fails and that reports network
id 0. -/
def demoLibNoEstimateChainZero : Lib Nat :=
  { demoLibNoEstimate with NetworkID := fun _ n => (.ok 0, n + 1) }

/-- The sample library with an ABI value that cannot pack `productCount`. -/
def demoLibNoCount : Lib Nat :=
  { demoLib with
    Pack := fun _ name args =>
      if name = "productCount" then .error "method not found"
      else .ok (name.length :: args.map (fun a => match a with | .bigInt v => v.toNat | _ => 0)) }

/-- The sample library with a node that fails the `products(2)` call. -/
def demoLibSecondFails : Lib Nat :=
  { demoLib with
    CallContract := fun _ msg n =>
      if msg.Data = [8, 2] then (.error "execution reverted", n + 1) else (.ok msg.Data, n + 1) }

/-- The sample library with a contract that reports `2^63 - 1` products. -/
def demoLibHuge : Lib Nat :=
  { demoLib with
    Unpack := fun _ name data =>
      if name = "productCount" then .ok [.bigInt 9223372036854775807]
      else .ok [.bigInt (data.getD 1 0), .address 21, .str "pen", .str "a pen", .bigInt 1000,
                .uint8 0, .address 0] }

/-- A well-formed purchase request. -/
def demoPurchase : Request :=
  { Method := "POST", Body := "\x7b\"productId\":1,\"amount\":\"1000\"\x7d" }

/-- A purchase request whose amount is not a base-10 integer. -/
def demoBadAmount : Request :=
  { Method := "POST", Body := "\x7b\"productId\":1,\"amount\":\"1e3\"\x7d" }

/-- A request for the product list. -/
def demoProducts : Request := { Method := "GET" }

/-- The response writer as `main` hands it to a handler. -/
def demoWriter : ResponseWriter :=
  ({} : ResponseWriter).headerSet "Access-Control-Allow-Origin" "*"

/-- The status code of the response, when there is one. -/
def Outcome.statusCode : Outcome → Option Nat
  | .done w => some w.statusCode
  | .panic => none

/-- The run of `productsHandler` with the sample library, as far as three loop tests go. -/
def demoRun : Outcome × St Nat :=
  (productsHandler demoLib 3 demoWriter demoProducts ⟨demoGlobals, 0, []⟩).getD
    (.panic, ⟨demoGlobals, 0, []⟩)

/-! ## Theorems -/

/-! ### The response writer -/

theorem headerSet_status (w : ResponseWriter) (k v : String) :
    (w.headerSet k v).status = w.status := rfl

theorem headerSet_body (w : ResponseWriter) (k v : String) :
    (w.headerSet k v).body = w.body := rfl

theorem corsHeaders_status (w : ResponseWriter) : (corsHeaders w).status = w.status := rfl

theorem corsHeaders_body (w : ResponseWriter) : (corsHeaders w).body = w.body := rfl

theorem httpError_statusCode (w : ResponseWriter) (msg : String) (code : Nat)
    (hw : w.status = none) : (httpError w msg code).statusCode = code := by
  simp [httpError, ResponseWriter.write, ResponseWriter.WriteHeader, ResponseWriter.headerDel,
    ResponseWriter.headerSet, ResponseWriter.statusCode, hw]

theorem encodeSuccess_statusCode (w : ResponseWriter) (h : String) (hw : w.status = none) :
    (encodeSuccess w h).statusCode = 200 := by
  simp [encodeSuccess, ResponseWriter.write, ResponseWriter.WriteHeader,
    ResponseWriter.statusCode, hw, StatusOK]

theorem encodeSuccess_body (w : ResponseWriter) (h : String) :
    (encodeSuccess w h).body =
      w.body ++ [.json (.obj [("status", .str "success"), ("txHash", .str h)])] := by
  simp only [encodeSuccess, ResponseWriter.write, ResponseWriter.WriteHeader]
  cases w.status <;> rfl

theorem encodeProducts_statusCode (w : ResponseWriter) (ps : List Product)
    (hw : w.status = none) : (encodeProducts w ps).statusCode = 200 := by
  simp [encodeProducts, ResponseWriter.write, ResponseWriter.WriteHeader,
    ResponseWriter.statusCode, hw, StatusOK]

theorem encodeProducts_body (w : ResponseWriter) (ps : List Product) :
    (encodeProducts w ps).body = w.body ++ [.json (.arr (ps.map Product.toJson))] := by
  simp only [encodeProducts, ResponseWriter.write, ResponseWriter.WriteHeader]
  cases w.status <;> rfl

/-! ### `purchaseHandler` -/

theorem purchaseHandler_shape (lib : Lib W) (g : Globals) (wd : W) (w : ResponseWriter)
    (r : Request) (req : Req) (amount : Int)
    (hm : r.Method ≠ "OPTIONS") (hdec : lib.DecodeReq r.Body = .ok req)
    (hamt : bigSetString10 req.Amount = some amount) :
    ∃ out tr wd1, purchaseHandler lib w r ⟨g, wd, []⟩ = (out, ⟨g, wd1, tr⟩) ∧
      PurchaseShape lib g w req amount out tr := by
  unfold PurchaseShape
  simp only [purchaseHandler, hm, if_false, hdec, hamt]
  rcases hp : lib.Pack g.parsedABI "purchaseProduct" [.bigInt req.ProductID] with data | e
  swap
  · simp only [doPack, hp, St.log]
    exact ⟨_, _, _, rfl, Or.inl ⟨e, rfl, rfl⟩⟩
  simp only [doPack, hp, St.log]
  rcases hn : lib.PendingNonceAt g.client g.fromAddr wd with ⟨rn, w1⟩
  rcases rn with nonce | e
  swap
  · simp only [doPendingNonceAt, hn]
    exact ⟨_, _, _, rfl, Or.inr ⟨data, _, rfl, Or.inl ⟨e, rfl, rfl⟩⟩⟩
  simp only [doPendingNonceAt, hn]
  rcases hs : lib.SuggestGasPrice g.client w1 with ⟨rs, w2⟩
  rcases rs with gasPrice | e
  swap
  · simp only [doSuggestGasPrice, hs]
    exact ⟨_, _, _, rfl, Or.inr ⟨data, _, rfl, Or.inr ⟨nonce, _, rfl, Or.inl ⟨e, rfl, rfl⟩⟩⟩⟩
  simp only [doSuggestGasPrice, hs]
  rcases hg : lib.EstimateGas g.client ⟨g.fromAddr, some g.contract, some amount, data⟩ w2
    with ⟨rg, w3⟩
  have hgas : ∀ st : St W, (match ((rg, st) : Res Nat × St W) with
      | (.error _, st4) => (1000000, st4)
      | (.ok gasLimit, st4) => (gasLimit, st4)) = (gasLimitOf rg, st) := by
    intro st; cases rg <;> rfl
  simp only [doEstimateGas, hg, hgas]
  rcases hc : lib.NetworkID g.client w3 with ⟨rc, w4⟩
  rcases rc with chainID | e
  swap
  · simp only [doNetworkID, hc]
    exact ⟨_, _, _, rfl, Or.inr ⟨data, _, rfl, Or.inr ⟨nonce, _, rfl, Or.inr
      ⟨gasPrice, rg, _, _, rfl, rfl, Or.inl ⟨e, rfl, rfl⟩⟩⟩⟩⟩
  simp only [doNetworkID, hc]
  by_cases hpos : chainID ≤ 0
  · simp only [LatestSignerForChainID, hpos, if_true]
    exact ⟨_, _, _, rfl, Or.inr ⟨data, _, rfl, Or.inr ⟨nonce, _, rfl, Or.inr
      ⟨gasPrice, rg, _, _, rfl, rfl, Or.inr ⟨chainID, _, _, rfl, rfl,
        Or.inl ⟨hpos, rfl, rfl⟩⟩⟩⟩⟩⟩
  have hpos2 : 0 < chainID := by omega
  simp only [LatestSignerForChainID, hpos, if_false]
  rcases hsg : lib.SignTx ⟨nonce, g.contract, amount, gasLimitOf rg, gasPrice, data⟩
    ⟨chainID⟩ g.fromKey with signedTx | e
  swap
  · simp only [doSignTx, NewTransaction, hsg, St.log]
    exact ⟨_, _, _, rfl, Or.inr ⟨data, _, rfl, Or.inr ⟨nonce, _, rfl, Or.inr
      ⟨gasPrice, rg, _, _, rfl, rfl, Or.inr ⟨chainID, _, _, rfl, rfl,
        Or.inr ⟨hpos2, Or.inl ⟨e, rfl, rfl⟩⟩⟩⟩⟩⟩⟩
  simp only [doSignTx, NewTransaction, hsg, St.log]
  rcases hsd : lib.SendTransaction g.client signedTx w4 with ⟨rsd, w5⟩
  rcases rsd with _ | e
  · simp only [doSendTransaction, hsd]
    exact ⟨_, _, _, rfl, Or.inr ⟨data, _, rfl, Or.inr ⟨nonce, _, rfl, Or.inr
      ⟨gasPrice, rg, _, _, rfl, rfl, Or.inr ⟨chainID, _, _, rfl, rfl, Or.inr ⟨hpos2, Or.inr
        ⟨signedTx, _, rfl, Or.inr ⟨rfl, rfl⟩⟩⟩⟩⟩⟩⟩⟩
  · simp only [doSendTransaction, hsd]
    exact ⟨_, _, _, rfl, Or.inr ⟨data, _, rfl, Or.inr ⟨nonce, _, rfl, Or.inr
      ⟨gasPrice, rg, _, _, rfl, rfl, Or.inr ⟨chainID, _, _, rfl, rfl, Or.inr ⟨hpos2, Or.inr
        ⟨signedTx, _, rfl, Or.inl ⟨e, rfl, rfl⟩⟩⟩⟩⟩⟩⟩⟩

/-! ### Machine integers, the loop of `productsHandler` -/

theorem wrapInt64_range (x : Int) : -2 ^ 63 ≤ wrapInt64 x ∧ wrapInt64 x < 2 ^ 63 := by
  unfold wrapInt64; omega

theorem wrapInt64_of_range (x : Int) (h1 : -2 ^ 63 ≤ x) (h2 : x < 2 ^ 63) :
    wrapInt64 x = x := by
  unfold wrapInt64; omega

theorem bigInt64_range (x : Int) : -2 ^ 63 ≤ bigInt64 x ∧ bigInt64 x < 2 ^ 63 := by
  unfold bigInt64
  split
  · exact wrapInt64_range _
  · exact wrapInt64_range _

theorem bigInt64_of_range (x : Int) (h1 : 0 ≤ x) (h2 : x < 2 ^ 63) : bigInt64 x = x := by
  unfold bigInt64 wrapInt64
  simp only [show ¬ x < 0 by omega, if_false]
  omega

theorem packCalls_append (a b : List Event) : packCalls (a ++ b) = packCalls a ++ packCalls b :=
  List.filterMap_append _ _ _

theorem callOutcomes_append (a b : List Event) :
    callOutcomes (a ++ b) = callOutcomes a ++ callOutcomes b :=
  List.filterMap_append _ _ _

theorem productsBody_spec (lib : Lib W) (i : Int) (products : List Product) (st : St W) :
    ∃ r bt wd1, productsBody lib i products st = (r, ⟨st.globals, wd1, st.trace ++ bt⟩) ∧
      packCalls bt = [("products", [.bigInt i])] ∧
      (callOutcomes bt).map Prod.fst = (productsMsg lib st.globals i).toList ∧
      bt.length ≤ 3 ∧
      (r = none ∨ r = some (products ++ (callOutcomes bt).filterMap (entryOf lib st.globals))) ∧
      (UnpackTyped lib st.globals.parsedABI → r ≠ none) := by
  obtain ⟨g, wd, tr⟩ := st
  unfold productsBody productsMsg msgOfPack
  rcases hp : lib.Pack g.parsedABI "products" [.bigInt i] with data | e
  swap
  · simp only [doPack, hp, St.log]
    refine ⟨some products, [.pack "products" [.bigInt i] (.error e)], wd, rfl, rfl, rfl,
      by simp, Or.inr ?_, by simp⟩
    simp [callOutcomes]
  simp only [doPack, hp, St.log]
  rcases hc : lib.CallContract g.client ⟨g.fromAddr, some g.contract, none, data⟩ wd
    with ⟨rc, w1⟩
  rcases rc with res | e
  swap
  · simp only [doCallContract, hc]
    refine ⟨some products, [.pack "products" [.bigInt i] (.ok data),
      .callContract ⟨g.fromAddr, some g.contract, none, data⟩ (.error e)], w1, by simp,
      rfl, rfl, by simp, Or.inr ?_, by simp⟩
    simp [callOutcomes, entryOf]
  simp only [doCallContract, hc]
  by_cases hlen : res.length = 0
  · simp only [hlen, if_true]
    refine ⟨some products, [.pack "products" [.bigInt i] (.ok data),
      .callContract ⟨g.fromAddr, some g.contract, none, data⟩ (.ok res)], w1, by simp,
      rfl, rfl, by simp, Or.inr ?_, by simp⟩
    simp [callOutcomes, entryOf, hlen]
  simp only [hlen, if_false]
  rcases hu : lib.Unpack g.parsedABI "products" res with out | e
  swap
  · simp only [doUnpack, hu, St.log]
    refine ⟨some products, [.pack "products" [.bigInt i] (.ok data),
      .callContract ⟨g.fromAddr, some g.contract, none, data⟩ (.ok res),
      .unpack "products" res (.error e)], w1, by simp, rfl, rfl, by simp, Or.inr ?_, by simp⟩
    simp [callOutcomes, entryOf, hlen, hu]
  simp only [doUnpack, hu, St.log]
  by_cases h7 : out.length = 7
  swap
  · simp only [ne_eq, h7, not_false_eq_true, if_true]
    refine ⟨some products, [.pack "products" [.bigInt i] (.ok data),
      .callContract ⟨g.fromAddr, some g.contract, none, data⟩ (.ok res),
      .unpack "products" res (.ok out)], w1, by simp, rfl, rfl, by simp, Or.inr ?_, by simp⟩
    simp [callOutcomes, entryOf, hlen, hu, h7]
  simp only [ne_eq, h7, not_true_eq_false, if_false]
  rcases hd : decodeProduct lib out with _ | p
  · refine ⟨none, [.pack "products" [.bigInt i] (.ok data),
      .callContract ⟨g.fromAddr, some g.contract, none, data⟩ (.ok res),
      .unpack "products" res (.ok out)], w1, by simp, rfl, rfl, by simp, Or.inl rfl, fun ht => ?_⟩
    have := ht res out hu h7
    simp [hd] at this
  · refine ⟨some (products ++ [p]), [.pack "products" [.bigInt i] (.ok data),
      .callContract ⟨g.fromAddr, some g.contract, none, data⟩ (.ok res),
      .unpack "products" res (.ok out)], w1, by simp, rfl, rfl, by simp, Or.inr ?_, by simp⟩
    simp [callOutcomes, entryOf, hlen, hu, h7, hd]


theorem filterMap_cons_toList {α β : Type} (f : α → Option β) (a : α) (l : List α) :
    (a :: l).filterMap f = (f a).toList ++ l.filterMap f := by
  rw [List.filterMap_cons]
  cases f a <;> rfl

theorem indices_eq_range (i : Int) (k : Nat) :
    indices i k = (List.range k).map (fun (j : Nat) => i + (j : Int)) := by
  induction k generalizing i with
  | zero => rfl
  | succ k ih =>
    rw [indices, ih, List.range_succ_eq_map, List.map_cons, List.map_map]
    simp only [Nat.cast_zero, add_zero, List.cons.injEq, true_and]
    apply List.map_congr_left
    intro j _
    simp only [Function.comp_apply, Nat.cast_succ]
    omega

theorem productsLoop_returns (lib : Lib W) (total : Int) (htot : total < 2 ^ 63 - 1) :
    ∀ (fuel : Nat) (i : Int) (products : List Product) (st : St W),
      -2 ^ 63 ≤ i → (total + 1 - i).toNat + 1 ≤ fuel →
      ∃ r st1, productsLoop lib total fuel i products st = some (r, st1) := by
  intro fuel
  induction fuel with
  | zero => intro i products st _ h; omega
  | succ fuel ih =>
    intro i products st hi hfuel
    unfold productsLoop
    by_cases hle : i ≤ total
    · simp only [hle, if_true]
      obtain ⟨rb, bt, wdb, hb, -⟩ := productsBody_spec lib i products st
      rw [hb]
      rcases rb with _ | ps1
      · exact ⟨_, _, rfl⟩
      · simp only
        rw [wrapInt64_of_range (i + 1) (by omega) (by omega)]
        exact ih (i + 1) ps1 _ (by omega) (by omega)
    · simp only [hle, if_false]
      exact ⟨_, _, rfl⟩

theorem productsLoop_shape (lib : Lib W) (total : Int) (htot : total < 2 ^ 63 - 1) :
    ∀ (fuel : Nat) (i : Int) (products : List Product) (st : St W) (r : Option (List Product))
      (st1 : St W), -2 ^ 63 ≤ i →
      productsLoop lib total fuel i products st = some (r, st1) →
      ∃ (k : Nat) (lt : List Event) (wd1 : W),
        st1 = ⟨st.globals, wd1, st.trace ++ lt⟩ ∧
        packCalls lt = (indices i k).map (fun j => ("products", [AbiValue.bigInt j])) ∧
        (callOutcomes lt).map Prod.fst = (indices i k).filterMap (productsMsg lib st.globals) ∧
        lt.length ≤ 3 * k ∧ k ≤ (total + 1 - i).toNat ∧
        (r = none ∨
          (r = some (products ++ (callOutcomes lt).filterMap (entryOf lib st.globals)) ∧
            k = (total + 1 - i).toNat)) ∧
        (UnpackTyped lib st.globals.parsedABI → r ≠ none) := by
  intro fuel
  induction fuel with
  | zero => intro i products st r st1 _ h; simp [productsLoop] at h
  | succ fuel ih =>
    intro i products st r st1 hi hrun
    unfold productsLoop at hrun
    by_cases hle : i ≤ total
    · simp only [hle, if_true] at hrun
      obtain ⟨rb, bt, wdb, hb, hpc, hco, hlen, hr, hty⟩ := productsBody_spec lib i products st
      rw [hb] at hrun
      rcases rb with _ | ps1
      · simp only [Option.some.injEq, Prod.mk.injEq] at hrun
        obtain ⟨rfl, rfl⟩ := hrun
        refine ⟨1, bt, wdb, rfl, by simpa [indices] using hpc, ?_, by omega, by omega,
          Or.inl rfl, hty⟩
        rw [hco]; simp [indices, filterMap_cons_toList]
      · simp only at hrun
        rw [wrapInt64_of_range (i + 1) (by omega) (by omega)] at hrun
        obtain ⟨k, lt, wd1, hst, hpc1, hco1, hlen1, hk, hr1, hty1⟩ :=
          ih (i + 1) ps1 _ r st1 (by omega) hrun
        have hps : ps1 = products ++ (callOutcomes bt).filterMap (entryOf lib st.globals) := by
          rcases hr with h | h
          · cases h
          · exact Option.some.inj h
        refine ⟨k + 1, bt ++ lt, wd1, ?_, ?_, ?_, ?_, by omega, ?_, hty1⟩
        · rw [hst]; simp
        · rw [packCalls_append, hpc, hpc1]; rfl
        · rw [callOutcomes_append, List.map_append, hco, hco1]
          simp only [indices, filterMap_cons_toList]
        · simp only [List.length_append]; omega
        · rcases hr1 with h | ⟨h, hk1⟩
          · exact Or.inl h
          · refine Or.inr ⟨?_, by omega⟩
            rw [h, hps, callOutcomes_append, List.filterMap_append, List.append_assoc]
    · simp only [hle, if_false, Option.some.injEq, Prod.mk.injEq] at hrun
      obtain ⟨rfl, rfl⟩ := hrun
      refine ⟨0, [], st.world, by simp, rfl, rfl, by simp, by omega, Or.inr ⟨by simp [callOutcomes], by omega⟩,
        by simp⟩

theorem productsLoop_diverges (lib : Lib W) (abi : ABI) (hty : UnpackTyped lib abi) :
    ∀ (fuel : Nat) (i : Int) (products : List Product) (st : St W),
      st.globals.parsedABI = abi → -2 ^ 63 ≤ i → i < 2 ^ 63 →
      productsLoop lib (2 ^ 63 - 1) fuel i products st = none := by
  intro fuel
  induction fuel with
  | zero => intro i products st _ _ _; rfl
  | succ fuel ih =>
    intro i products st hg h1 h2
    unfold productsLoop
    have hle : i ≤ 2 ^ 63 - 1 := by omega
    simp only [hle, if_true]
    obtain ⟨rb, bt, wdb, hb, -, -, -, -, hsome⟩ := productsBody_spec lib i products st
    rw [hb]
    rcases rb with _ | ps1
    · exact absurd rfl (hsome (hg ▸ hty))
    · simp only
      exact ih _ ps1 _ hg (wrapInt64_range _).1 (wrapInt64_range _).2

theorem wrapInt64_add (a b : Int) : wrapInt64 (wrapInt64 a + b) = wrapInt64 (a + b) := by
  unfold wrapInt64; omega

theorem productsLoop_trace_extends (lib : Lib W) (total : Int) :
    ∀ (fuel : Nat) (i : Int) (products : List Product) (st : St W) (r : Option (List Product))
      (st1 : St W), productsLoop lib total fuel i products st = some (r, st1) →
      ∃ lt, st1.trace = st.trace ++ lt := by
  intro fuel
  induction fuel with
  | zero => intro i products st r st1 h; simp [productsLoop] at h
  | succ fuel ih =>
    intro i products st r st1 hrun
    unfold productsLoop at hrun
    by_cases hle : i ≤ total
    · simp only [hle, if_true] at hrun
      obtain ⟨rb, bt, wdb, hb, -⟩ := productsBody_spec lib i products st
      rw [hb] at hrun
      rcases rb with _ | ps1
      · simp only [Option.some.injEq, Prod.mk.injEq] at hrun
        exact ⟨bt, by rw [← hrun.2]⟩
      · simp only at hrun
        obtain ⟨lt, hlt⟩ := ih _ ps1 _ r st1 hrun
        exact ⟨bt ++ lt, by rw [hlt, List.append_assoc]⟩
    · simp only [hle, if_false, Option.some.injEq, Prod.mk.injEq] at hrun
      exact ⟨[], by rw [← hrun.2]; simp⟩

theorem productsLoop_eq_log (lib : Lib W) (total : Int) :
    ∀ (fuel : Nat) (i : Int) (products : List Product) (st : St W) (r : Option (List Product))
      (st1 : St W), productsLoop lib total fuel i products st = some (r, st1) →
      productsLoopLog lib total fuel i products st = st1 := by
  intro fuel
  induction fuel with
  | zero => intro i products st r st1 h; simp [productsLoop] at h
  | succ fuel ih =>
    intro i products st r st1 hrun
    unfold productsLoop at hrun
    unfold productsLoopLog
    by_cases hle : i ≤ total
    · simp only [hle, if_true] at hrun ⊢
      rcases hb : productsBody lib i products st with ⟨rb, st2⟩
      rw [hb] at hrun
      rcases rb with _ | ps1
      · simp only [Option.some.injEq, Prod.mk.injEq] at hrun
        exact hrun.2
      · simp only at hrun ⊢
        exact ih _ ps1 _ r st1 hrun
    · simp only [hle, if_false, Option.some.injEq, Prod.mk.injEq] at hrun ⊢
      exact hrun.2

theorem productsLoopLog_wrapped (lib : Lib W) (abi : ABI) (hty : UnpackTyped lib abi) :
    ∀ (fuel : Nat) (i : Int) (products : List Product) (st : St W),
      st.globals.parsedABI = abi → -2 ^ 63 ≤ i → i < 2 ^ 63 →
      ∃ lt wd1, productsLoopLog lib (2 ^ 63 - 1) fuel i products st =
          ⟨st.globals, wd1, st.trace ++ lt⟩ ∧
        packCalls lt = (List.range fuel).map
          (fun (j : Nat) => ("products", [AbiValue.bigInt (wrapInt64 (i + (j : Int)))])) ∧
        (callOutcomes lt).map Prod.fst = (List.range fuel).filterMap
          (fun (j : Nat) => productsMsg lib st.globals (wrapInt64 (i + (j : Int)))) := by
  intro fuel
  induction fuel with
  | zero =>
    intro i products st _ _ _
    exact ⟨[], st.world, by simp [productsLoopLog], rfl, rfl⟩
  | succ fuel ih =>
    intro i products st hg h1 h2
    unfold productsLoopLog
    have hle : i ≤ 2 ^ 63 - 1 := by omega
    simp only [hle, if_true]
    obtain ⟨rb, bt, wdb, hb, hpc, hco, -, -, hsome⟩ := productsBody_spec lib i products st
    rw [hb]
    rcases rb with _ | ps1
    · exact absurd rfl (hsome (hg ▸ hty))
    simp only
    obtain ⟨lt, wd1, hst, hpc1, hco1⟩ := ih (wrapInt64 (i + 1)) ps1
      ⟨st.globals, wdb, st.trace ++ bt⟩ hg (wrapInt64_range _).1 (wrapInt64_range _).2
    have hi0 : wrapInt64 (i + ((0 : Nat) : Int)) = i := by
      rw [Nat.cast_zero, add_zero]; exact wrapInt64_of_range i h1 h2
    have hstep : ∀ j : Nat, wrapInt64 (wrapInt64 (i + 1) + (j : Int)) =
        wrapInt64 (i + ((j + 1 : Nat) : Int)) := by
      intro j
      rw [wrapInt64_add]
      congr 1
      push_cast
      ring
    refine ⟨bt ++ lt, wd1, ?_, ?_, ?_⟩
    · rw [hst]; simp
    · rw [packCalls_append, hpc, hpc1, List.range_succ_eq_map, List.map_cons, List.map_map, hi0]
      simp only [List.singleton_append, List.cons.injEq, true_and]
      apply List.map_congr_left
      intro j _
      simp only [Function.comp_apply, hstep]
    · rw [callOutcomes_append, List.map_append, hco, hco1, List.range_succ_eq_map,
        filterMap_cons_toList, List.filterMap_map, hi0]
      congr 1
      apply List.filterMap_congr
      intro j _
      simp only [Function.comp_apply, hstep]

theorem sublist_range_ends (m : Nat) : List.Sublist [0, m + 1] (List.range (m + 2)) := by
  rw [List.range_succ, List.range_succ_eq_map]
  exact List.Sublist.cons₂ 0 (List.sublist_append_right _ _)

theorem loggedCount_after_count (data0 res0 : Bytes) (msg : CallMsg) (c : Int)
    (rest : List AbiValue) (lt : List Event) :
    loggedCount ([.pack "productCount" [] (.ok data0), .callContract msg (.ok res0),
      .unpack "productCount" res0 (.ok (.bigInt c :: rest))] ++ lt) = some c := by
  simp [loggedCount, List.findSome?]

/-! ### Decimal numerals -/

theorem digitValue_digitChar (k : Nat) (h : k < 10) : digitValue (Nat.digitChar k) = some k := by
  interval_cases k <;> rfl

theorem scanDigits_toDigitsCore :
    ∀ (fuel n : Nat) (ds : List Char), n < fuel →
      scanDigits (Nat.toDigitsCore 10 fuel n ds) 0 = scanDigits ds n := by
  intro fuel
  induction fuel with
  | zero => intro n ds h; omega
  | succ fuel ih =>
    intro n ds h
    unfold Nat.toDigitsCore
    by_cases h0 : n / 10 = 0
    · simp only [h0, if_true, scanDigits, digitValue_digitChar (n % 10) (Nat.mod_lt _ (by decide))]
      congr 1
      omega
    · simp only [h0, if_false]
      rw [ih (n / 10) _ (by omega)]
      simp only [scanDigits, digitValue_digitChar (n % 10) (Nat.mod_lt _ (by decide))]
      congr 1
      omega

theorem headIsDigit_toDigitsCore :
    ∀ (fuel n : Nat) (ds : List Char), HeadIsDigit ds →
      HeadIsDigit (Nat.toDigitsCore 10 fuel n ds) := by
  intro fuel
  induction fuel with
  | zero => intro n ds h; exact h
  | succ fuel ih =>
    intro n ds _
    unfold Nat.toDigitsCore
    have hd : HeadIsDigit (Nat.digitChar (n % 10) :: ds) :=
      ⟨_, _, rfl, by rw [digitValue_digitChar (n % 10) (Nat.mod_lt _ (by decide))]; rfl⟩
    by_cases h0 : n / 10 = 0
    · simp only [h0, if_true]; exact hd
    · simp only [h0, if_false]; exact ih _ _ hd

theorem headIsDigit_toDigits (n : Nat) : HeadIsDigit (Nat.toDigits 10 n) := by
  unfold Nat.toDigits Nat.toDigitsCore
  have hd : HeadIsDigit (Nat.digitChar (n % 10) :: []) :=
    ⟨_, _, rfl, by rw [digitValue_digitChar (n % 10) (Nat.mod_lt _ (by decide))]; rfl⟩
  by_cases h0 : n / 10 = 0
  · simp only [h0, if_true]; exact hd
  · simp only [h0, if_false]; exact headIsDigit_toDigitsCore _ _ _ hd

theorem scanDigits_toDigits (n : Nat) : scanDigits (Nat.toDigits 10 n) 0 = some n := by
  unfold Nat.toDigits
  rw [scanDigits_toDigitsCore (n + 1) n [] (by omega)]
  rfl

theorem scanSign_of_headIsDigit (l : List Char) (h : HeadIsDigit l) :
    scanSign l = (false, l) := by
  obtain ⟨c, rest, rfl, hc⟩ := h
  have h1 : c ≠ '-' := by rintro rfl; exact absurd hc (by decide)
  have h2 : c ≠ '+' := by rintro rfl; exact absurd hc (by decide)
  unfold scanSign
  split
  · rename_i heq
    simp only [List.cons.injEq] at heq
    exact absurd heq.1 h1
  · rename_i heq
    simp only [List.cons.injEq] at heq
    exact absurd heq.1 h2
  · rfl

theorem bigSetString10_digits (l : List Char) (h : HeadIsDigit l) :
    bigSetString10 ⟨l⟩ = (scanDigits l 0).map (fun (n : Nat) => (n : Int)) := by
  unfold bigSetString10
  simp only [scanSign_of_headIsDigit l h]
  obtain ⟨c, rest, rfl, hc⟩ := h
  simp only
  cases scanDigits (c :: rest) 0 <;> simp

theorem bigSetString10_minus (l : List Char) (h : HeadIsDigit l) :
    bigSetString10 ⟨'-' :: l⟩ = (scanDigits l 0).map (fun (n : Nat) => -(n : Int)) := by
  unfold bigSetString10
  have hs : scanSign ('-' :: l) = (true, l) := rfl
  simp only [hs]
  obtain ⟨c, rest, rfl, hc⟩ := h
  simp only
  cases scanDigits (c :: rest) 0 <;> simp

theorem bigSetString10_bigString (v : Int) : bigSetString10 (bigString v) = some v := by
  cases v with
  | ofNat m =>
    have : bigString (Int.ofNat m) = ⟨Nat.toDigits 10 m⟩ := rfl
    rw [this, bigSetString10_digits _ (headIsDigit_toDigits m), scanDigits_toDigits]
    rfl
  | negSucc m =>
    have : bigString (Int.negSucc m) = ⟨'-' :: Nat.toDigits 10 (m + 1)⟩ := rfl
    rw [this, bigSetString10_minus _ (headIsDigit_toDigits (m + 1)), scanDigits_toDigits]
    simp only [Option.map_some', Option.some.injEq]
    rw [Int.negSucc_eq]
    push_cast
    ring

/-! ### The claims about `purchaseHandler` -/

/-- C8: a non-OPTIONS request whose body does not decode into `Req`, or whose amount
`SetString(_, 10)` rejects, is answered with status 400, and the handler state is returned
as it was received: nothing was appended to the log of library calls and the node was not
touched. -/
theorem purchaseHandler_bad_request (lib : Lib W) (w : ResponseWriter) (r : Request)
    (st : St W) (hm : r.Method ≠ "OPTIONS") (hw : w.status = none)
    (hbad : (∃ e, lib.DecodeReq r.Body = .error e) ∨
      ∃ req, lib.DecodeReq r.Body = .ok req ∧ bigSetString10 req.Amount = none) :
    (∃ wr, (purchaseHandler lib w r st).1 = .done wr ∧ wr.statusCode = 400) ∧
    (purchaseHandler lib w r st).1.statusCode = some 400 ∧
    (purchaseHandler lib w r st).2 = st := by
  rcases hbad with ⟨e, he⟩ | ⟨req, hreq, hamt⟩
  · simp only [purchaseHandler, hm, if_false, he, Outcome.statusCode]
    exact ⟨⟨_, rfl, httpError_statusCode _ _ _ hw⟩,
      congrArg some (httpError_statusCode _ _ _ hw), trivial⟩
  · simp only [purchaseHandler, hm, if_false, hreq, hamt, Outcome.statusCode]
    exact ⟨⟨_, rfl, httpError_statusCode _ _ _ hw⟩,
      congrArg some (httpError_statusCode _ _ _ hw), trivial⟩

theorem purchaseHandler_bad_request_witness :
    (∃ wr, (purchaseHandler demoLib demoWriter demoBadAmount ⟨demoGlobals, 0, []⟩).1 =
      .done wr ∧ wr.statusCode = 400) ∧
    (purchaseHandler demoLib demoWriter demoBadAmount ⟨demoGlobals, 0, []⟩).1.statusCode =
      some 400 ∧
    (purchaseHandler demoLib demoWriter demoBadAmount ⟨demoGlobals, 0, []⟩).2 =
      ⟨demoGlobals, 0, []⟩ :=
  purchaseHandler_bad_request demoLib demoWriter demoBadAmount ⟨demoGlobals, 0, []⟩
    (by decide) rfl (Or.inr ⟨⟨1, "1e3"⟩, by decide, by decide⟩)

/-- C1 as stated fails: with a node whose `EstimateGas` returns an error while every other
call succeeds, a well-formed purchase request is served with a failed library call in its
log and status 200. -/
theorem purchaseHandler_estimateGas_error_status :
    demoPurchase.Method ≠ "OPTIONS" ∧
    demoLibNoEstimate.DecodeReq demoPurchase.Body = .ok ⟨1, "1000"⟩ ∧
    bigSetString10 "1000" = some 1000 ∧
    (∃ e ∈ (purchaseHandler demoLibNoEstimate demoWriter demoPurchase
        ⟨demoGlobals, 0, []⟩).2.trace, e.failed = true) ∧
    (purchaseHandler demoLibNoEstimate demoWriter demoPurchase
        ⟨demoGlobals, 0, []⟩).1.statusCode = some 200 ∧
    (purchaseHandler demoLibNoEstimate demoWriter demoPurchase
        ⟨demoGlobals, 0, []⟩).1.statusCode ≠ some 500 := by
  decide

/-- C1, amended: for an accepted purchase request, if a library call other than
`EstimateGas` (that is `Pack`, `PendingNonceAt`, `SuggestGasPrice`, `NetworkID`, `SignTx` or
`SendTransaction`) returned an error, the handler answers, and with status 500. -/
theorem purchaseHandler_error_status_500 (lib : Lib W) (g : Globals) (wd : W)
    (w : ResponseWriter) (r : Request) (req : Req) (amount : Int)
    (hm : r.Method ≠ "OPTIONS") (hdec : lib.DecodeReq r.Body = .ok req)
    (hamt : bigSetString10 req.Amount = some amount) (hw : w.status = none)
    (herr : ∃ e ∈ (purchaseHandler lib w r ⟨g, wd, []⟩).2.trace,
      e.failed = true ∧ e.isEstimateGas = false) :
    (∃ wr, (purchaseHandler lib w r ⟨g, wd, []⟩).1 = .done wr ∧ wr.statusCode = 500) ∧
    (purchaseHandler lib w r ⟨g, wd, []⟩).1.statusCode = some 500 := by
  obtain ⟨out, tr, wd1, heq, hsh⟩ := purchaseHandler_shape lib g wd w r req amount hm hdec hamt
  rw [heq] at herr ⊢
  have hc : (corsHeaders w).status = none := hw
  simp only [PurchaseShape] at hsh
  rcases hsh with ⟨e, rfl, rfl⟩ | ⟨data, p, rfl, ⟨e, rfl, rfl⟩ | ⟨nonce, n, rfl,
    ⟨e, rfl, rfl⟩ | ⟨gasPrice, rg, s, eg, rfl, rfl, ⟨e, rfl, rfl⟩ | ⟨chainID, c, tx, rfl, rfl,
    ⟨hch, rfl, rfl⟩ | ⟨hch, ⟨e, rfl, rfl⟩ | ⟨signedTx, sg, rfl,
    ⟨e, rfl, rfl⟩ | ⟨rfl, rfl⟩⟩⟩⟩⟩⟩⟩
  all_goals first
    | exact ⟨⟨_, rfl, httpError_statusCode _ _ _ hc⟩,
        congrArg some (httpError_statusCode _ _ _ hc)⟩
    | exact absurd herr (by simp [Event.failed, Res.failed, Event.isEstimateGas])

theorem purchaseHandler_error_status_500_witness :
    (∃ wr, (purchaseHandler demoLibNoSend demoWriter demoPurchase ⟨demoGlobals, 0, []⟩).1 =
      .done wr ∧ wr.statusCode = 500) ∧
    (purchaseHandler demoLibNoSend demoWriter demoPurchase
      ⟨demoGlobals, 0, []⟩).1.statusCode = some 500 :=
  purchaseHandler_error_status_500 demoLibNoSend demoGlobals 0 demoWriter demoPurchase
    ⟨1, "1000"⟩ 1000 (by decide) (by decide) (by decide) rfl (by decide)

/-- C3 as stated fails: with a node that reports network id 0, every library call the
handler makes for a well-formed purchase request succeeds, yet building the signer panics:
the log has five calls, none of them `SignTx` or `SendTransaction`, and there is no
response. -/
theorem purchaseHandler_chainID_zero_panics :
    demoPurchase.Method ≠ "OPTIONS" ∧
    demoLibChainZero.DecodeReq demoPurchase.Body = .ok ⟨1, "1000"⟩ ∧
    bigSetString10 "1000" = some 1000 ∧
    (∀ e ∈ (purchaseHandler demoLibChainZero demoWriter demoPurchase
        ⟨demoGlobals, 0, []⟩).2.trace, e.failed = false) ∧
    (purchaseHandler demoLibChainZero demoWriter demoPurchase
        ⟨demoGlobals, 0, []⟩).2.trace.length = 5 ∧
    (purchaseHandler demoLibChainZero demoWriter demoPurchase
        ⟨demoGlobals, 0, []⟩).2.trace.countP Event.isSendTransaction = 0 ∧
    (purchaseHandler demoLibChainZero demoWriter demoPurchase
        ⟨demoGlobals, 0, []⟩).1.statusCode = none := by
  decide

/-- C3, amended: for an accepted purchase request served without any failed library call
and with a positive chain id from `NetworkID`, the log of library calls is exactly:
`Pack("purchaseProduct", productId)`, `PendingNonceAt` for the sender, `SuggestGasPrice`,
`EstimateGas`, `NetworkID`, `SignTx` with the fixed key of the transaction built from those
results (recipient the contract, value the parsed amount), and one `SendTransaction` of that
signed transaction; the response has status 200 and its body is the JSON object with
`status` `success` and `txHash` the hash of that transaction. -/
theorem purchaseHandler_success (lib : Lib W) (g : Globals) (wd : W) (w : ResponseWriter)
    (r : Request) (req : Req) (amount : Int)
    (hm : r.Method ≠ "OPTIONS") (hdec : lib.DecodeReq r.Body = .ok req)
    (hamt : bigSetString10 req.Amount = some amount)
    (hw : w.status = none) (hb : w.body = [])
    (hok : ∀ e ∈ (purchaseHandler lib w r ⟨g, wd, []⟩).2.trace, e.failed = false)
    (hchain : ∀ e ∈ (purchaseHandler lib w r ⟨g, wd, []⟩).2.trace,
      e.chainIDPositive = true) :
    ∃ data nonce gasPrice gasLimit chainID signedTx wr,
      (purchaseHandler lib w r ⟨g, wd, []⟩).2.trace =
        [.pack "purchaseProduct" [.bigInt req.ProductID] (.ok data),
         .pendingNonceAt g.fromAddr (.ok nonce),
         .suggestGasPrice (.ok gasPrice),
         .estimateGas ⟨g.fromAddr, some g.contract, some amount, data⟩ (.ok gasLimit),
         .networkID (.ok chainID),
         .signTx ⟨nonce, g.contract, amount, gasLimit, gasPrice, data⟩ ⟨chainID⟩ g.fromKey
           (.ok signedTx),
         .sendTransaction signedTx none] ∧
      0 < chainID ∧
      (purchaseHandler lib w r ⟨g, wd, []⟩).1 = .done wr ∧
      wr.statusCode = 200 ∧
      wr.body =
        [.json (.obj [("status", .str "success"),
          ("txHash", .str (lib.HashHex signedTx))])] := by
  obtain ⟨out, tr, wd1, heq, hsh⟩ := purchaseHandler_shape lib g wd w r req amount hm hdec hamt
  rw [heq] at hok hchain ⊢
  have hc : (corsHeaders w).status = none := hw
  simp only [PurchaseShape] at hsh
  rcases hsh with ⟨e, rfl, rfl⟩ | ⟨data, p, rfl, ⟨e, rfl, rfl⟩ | ⟨nonce, n, rfl,
    ⟨e, rfl, rfl⟩ | ⟨gasPrice, rg, s, eg, rfl, rfl, ⟨e, rfl, rfl⟩ | ⟨chainID, c, tx, rfl, rfl,
    ⟨hch, rfl, rfl⟩ | ⟨hch, ⟨e, rfl, rfl⟩ | ⟨signedTx, sg, rfl,
    ⟨e, rfl, rfl⟩ | ⟨rfl, rfl⟩⟩⟩⟩⟩⟩⟩
  all_goals try (exfalso; simp [Event.failed, Res.failed] at hok; done)
  · exfalso
    have := hchain (.networkID (.ok chainID)) (by simp)
    simp only [Event.chainIDPositive, decide_eq_true_eq] at this
    omega
  rcases rg with gasLimit | e
  · refine ⟨data, nonce, gasPrice, gasLimit, chainID, signedTx, _, rfl, hch, rfl,
      encodeSuccess_statusCode _ _ hc, ?_⟩
    rw [encodeSuccess_body]
    simp [headerSet_body, corsHeaders_body, hb]
  · exfalso; simp [Event.failed, Res.failed] at hok

theorem purchaseHandler_success_witness :
    ∃ data nonce gasPrice gasLimit chainID signedTx wr,
      (purchaseHandler demoLib demoWriter demoPurchase ⟨demoGlobals, 0, []⟩).2.trace =
        [.pack "purchaseProduct" [.bigInt 1] (.ok data),
         .pendingNonceAt demoGlobals.fromAddr (.ok nonce),
         .suggestGasPrice (.ok gasPrice),
         .estimateGas ⟨demoGlobals.fromAddr, some demoGlobals.contract, some 1000, data⟩
           (.ok gasLimit),
         .networkID (.ok chainID),
         .signTx ⟨nonce, demoGlobals.contract, 1000, gasLimit, gasPrice, data⟩ ⟨chainID⟩
           demoGlobals.fromKey (.ok signedTx),
         .sendTransaction signedTx none] ∧
      0 < chainID ∧
      (purchaseHandler demoLib demoWriter demoPurchase ⟨demoGlobals, 0, []⟩).1 = .done wr ∧
      wr.statusCode = 200 ∧
      wr.body =
        [.json (.obj [("status", .str "success"),
          ("txHash", .str (demoLib.HashHex signedTx))])] :=
  purchaseHandler_success demoLib demoGlobals 0 demoWriter demoPurchase ⟨1, "1000"⟩ 1000
    (by decide) (by decide) (by decide) rfl rfl (by decide) (by decide)

/-- C6 as stated fails: with a node whose `EstimateGas` returns an error and that reports
network id 0, no other library call of the run fails, yet building the signer panics:
nothing is signed or sent and there is no response. -/
theorem purchaseHandler_fallback_chainID_zero_panics :
    demoPurchase.Method ≠ "OPTIONS" ∧
    demoLibNoEstimateChainZero.DecodeReq demoPurchase.Body = .ok ⟨1, "1000"⟩ ∧
    bigSetString10 "1000" = some 1000 ∧
    (∃ e ∈ (purchaseHandler demoLibNoEstimateChainZero demoWriter demoPurchase
        ⟨demoGlobals, 0, []⟩).2.trace, e.isEstimateGas = true ∧ e.failed = true) ∧
    (∀ e ∈ (purchaseHandler demoLibNoEstimateChainZero demoWriter demoPurchase
        ⟨demoGlobals, 0, []⟩).2.trace, e.isEstimateGas = false → e.failed = false) ∧
    (purchaseHandler demoLibNoEstimateChainZero demoWriter demoPurchase
        ⟨demoGlobals, 0, []⟩).2.trace.length = 5 ∧
    (purchaseHandler demoLibNoEstimateChainZero demoWriter demoPurchase
        ⟨demoGlobals, 0, []⟩).2.trace.countP Event.isSendTransaction = 0 ∧
    (purchaseHandler demoLibNoEstimateChainZero demoWriter demoPurchase
        ⟨demoGlobals, 0, []⟩).1.statusCode = none := by
  decide

/-- C6, amended: when `EstimateGas` returns an error, no other library call fails and the
chain id from `NetworkID` is positive, the handler still signs and sends the transaction,
built with gas limit 1000000, and answers with status 200 and the success JSON carrying
the hash of the signed transaction. -/
theorem purchaseHandler_estimateGas_fallback (lib : Lib W) (g : Globals) (wd : W)
    (w : ResponseWriter) (r : Request) (req : Req) (amount : Int)
    (hm : r.Method ≠ "OPTIONS") (hdec : lib.DecodeReq r.Body = .ok req)
    (hamt : bigSetString10 req.Amount = some amount)
    (hw : w.status = none) (hb : w.body = [])
    (hgas : ∃ e ∈ (purchaseHandler lib w r ⟨g, wd, []⟩).2.trace,
      e.isEstimateGas = true ∧ e.failed = true)
    (hok : ∀ e ∈ (purchaseHandler lib w r ⟨g, wd, []⟩).2.trace,
      e.isEstimateGas = false → e.failed = false)
    (hchain : ∀ e ∈ (purchaseHandler lib w r ⟨g, wd, []⟩).2.trace,
      e.chainIDPositive = true) :
    ∃ data nonce gasPrice err chainID signedTx wr,
      (purchaseHandler lib w r ⟨g, wd, []⟩).2.trace =
        [.pack "purchaseProduct" [.bigInt req.ProductID] (.ok data),
         .pendingNonceAt g.fromAddr (.ok nonce),
         .suggestGasPrice (.ok gasPrice),
         .estimateGas ⟨g.fromAddr, some g.contract, some amount, data⟩ (.error err),
         .networkID (.ok chainID),
         .signTx ⟨nonce, g.contract, amount, 1000000, gasPrice, data⟩ ⟨chainID⟩ g.fromKey
           (.ok signedTx),
         .sendTransaction signedTx none] ∧
      0 < chainID ∧
      (purchaseHandler lib w r ⟨g, wd, []⟩).1 = .done wr ∧
      wr.statusCode = 200 ∧
      wr.body =
        [.json (.obj [("status", .str "success"),
          ("txHash", .str (lib.HashHex signedTx))])] := by
  obtain ⟨out, tr, wd1, heq, hsh⟩ := purchaseHandler_shape lib g wd w r req amount hm hdec hamt
  rw [heq] at hok hgas hchain ⊢
  have hc : (corsHeaders w).status = none := hw
  simp only [PurchaseShape] at hsh
  rcases hsh with ⟨e, rfl, rfl⟩ | ⟨data, p, rfl, ⟨e, rfl, rfl⟩ | ⟨nonce, n, rfl,
    ⟨e, rfl, rfl⟩ | ⟨gasPrice, rg, s, eg, rfl, rfl, ⟨e, rfl, rfl⟩ | ⟨chainID, c, tx, rfl, rfl,
    ⟨hch, rfl, rfl⟩ | ⟨hch, ⟨e, rfl, rfl⟩ | ⟨signedTx, sg, rfl,
    ⟨e, rfl, rfl⟩ | ⟨rfl, rfl⟩⟩⟩⟩⟩⟩⟩
  all_goals try (exfalso; simp [Event.failed, Res.failed, Event.isEstimateGas] at hok hgas; done)
  · exfalso
    have := hchain (.networkID (.ok chainID)) (by simp)
    simp only [Event.chainIDPositive, decide_eq_true_eq] at this
    omega
  rcases rg with gasLimit | err
  · exfalso; simp [Event.failed, Res.failed, Event.isEstimateGas] at hgas
  · refine ⟨data, nonce, gasPrice, err, chainID, signedTx, _, rfl, hch, rfl,
      encodeSuccess_statusCode _ _ hc, ?_⟩
    rw [encodeSuccess_body]
    simp [headerSet_body, corsHeaders_body, hb]

theorem purchaseHandler_estimateGas_fallback_witness :
    ∃ data nonce gasPrice err chainID signedTx wr,
      (purchaseHandler demoLibNoEstimate demoWriter demoPurchase
          ⟨demoGlobals, 0, []⟩).2.trace =
        [.pack "purchaseProduct" [.bigInt 1] (.ok data),
         .pendingNonceAt demoGlobals.fromAddr (.ok nonce),
         .suggestGasPrice (.ok gasPrice),
         .estimateGas ⟨demoGlobals.fromAddr, some demoGlobals.contract, some 1000, data⟩
           (.error err),
         .networkID (.ok chainID),
         .signTx ⟨nonce, demoGlobals.contract, 1000, 1000000, gasPrice, data⟩ ⟨chainID⟩
           demoGlobals.fromKey (.ok signedTx),
         .sendTransaction signedTx none] ∧
      0 < chainID ∧
      (purchaseHandler demoLibNoEstimate demoWriter demoPurchase
          ⟨demoGlobals, 0, []⟩).1 = .done wr ∧
      wr.statusCode = 200 ∧
      wr.body =
        [.json (.obj [("status", .str "success"),
          ("txHash", .str (demoLibNoEstimate.HashHex signedTx))])] :=
  purchaseHandler_estimateGas_fallback demoLibNoEstimate demoGlobals 0 demoWriter demoPurchase
    ⟨1, "1000"⟩ 1000 (by decide) (by decide) (by decide) rfl rfl (by decide) (by decide)
    (by decide)

/-! ### The claims about `productsHandler` -/

/-- The three events of a successful `productCount` stage. -/
theorem productsHandler_after_count (lib : Lib W) (g : Globals) (wd wd0 : W)
    (w : ResponseWriter) (r : Request) (fuel : Nat) (data0 res0 : Bytes) (c : Int)
    (rest : List AbiValue)
    (hp : lib.Pack g.parsedABI "productCount" [] = .ok data0)
    (hc : lib.CallContract g.client ⟨g.fromAddr, some g.contract, none, data0⟩ wd =
      (.ok res0, wd0))
    (hu : lib.Unpack g.parsedABI "productCount" res0 = .ok (.bigInt c :: rest)) :
    productsHandler lib fuel w r ⟨g, wd, []⟩ =
      if bigInt64 c = 0 then
        some (.done (encodeProducts (w.headerSet "Content-Type" "application/json") []),
          ⟨g, wd0, [.pack "productCount" [] (.ok data0),
            .callContract ⟨g.fromAddr, some g.contract, none, data0⟩ (.ok res0),
            .unpack "productCount" res0 (.ok (.bigInt c :: rest))]⟩)
      else
        match productsLoop lib (bigInt64 c) fuel 1 []
          ⟨g, wd0, [.pack "productCount" [] (.ok data0),
            .callContract ⟨g.fromAddr, some g.contract, none, data0⟩ (.ok res0),
            .unpack "productCount" res0 (.ok (.bigInt c :: rest))]⟩ with
        | none => none
        | some (none, st4) => some (.panic, st4)
        | some (some products, st4) =>
          some (.done (encodeProducts (w.headerSet "Content-Type" "application/json")
            products), st4) := by
  simp only [productsHandler, doPack, hp, St.log, doCallContract, hc, doUnpack, hu]
  rfl

theorem length_filterMap_of_isSome {α β : Type} (f : α → Option β) (l : List α)
    (h : ∀ a ∈ l, (f a).isSome = true) : (l.filterMap f).length = l.length := by
  induction l with
  | nil => rfl
  | cons a l ih =>
    have ha := h a (List.mem_cons_self _ _)
    obtain ⟨b, hb⟩ := Option.isSome_iff_exists.mp ha
    rw [List.filterMap_cons_some hb, List.length_cons, List.length_cons,
      ih (fun x hx => h x (List.mem_cons_of_mem _ hx))]

/-- C4, amended: when the `productCount` stage succeeds and decodes to `n` with
`0 ≤ n < 2^63 - 1` (and `Unpack` hands back `products` tuples in the Go types of the ABI),
the handler, given fuel for `n + 1` loop tests, returns a response.  After the three
`productCount` events its log `lt` has at most `3 * n` events; its `Pack` calls are
`Pack("products", i)` for exactly `i = 1, ..., n` in that order; its `CallContract` calls
are, in that order, the messages from the sender to the contract with data
`Pack("products", i)` for those `i` whose `Pack` succeeded.  The response has status
200 and its body is the JSON array of the entries of those calls, in order: one for each
call that succeeded, returned non-empty data and unpacked to 7 values.  The array has at
most `n` entries, exactly `n` when every `Pack` succeeds and every call yields an entry,
and for `n = 0` it is empty and no further call is made. -/
theorem productsHandler_lists_products (lib : Lib W) (g : Globals) (wd wd0 : W)
    (w : ResponseWriter) (r : Request) (fuel : Nat) (data0 res0 : Bytes) (n : Nat)
    (rest : List AbiValue)
    (hw : w.status = none) (hb : w.body = [])
    (hp : lib.Pack g.parsedABI "productCount" [] = .ok data0)
    (hc : lib.CallContract g.client ⟨g.fromAddr, some g.contract, none, data0⟩ wd =
      (.ok res0, wd0))
    (hu : lib.Unpack g.parsedABI "productCount" res0 = .ok (.bigInt (n : Int) :: rest))
    (hn : (n : Int) < 2 ^ 63 - 1)
    (hty : UnpackTyped lib g.parsedABI)
    (hfuel : n + 1 ≤ fuel) :
    ∃ wr lt wd1,
      productsHandler lib fuel w r ⟨g, wd, []⟩ =
        some (.done wr, ⟨g, wd1,
          [.pack "productCount" [] (.ok data0),
           .callContract ⟨g.fromAddr, some g.contract, none, data0⟩ (.ok res0),
           .unpack "productCount" res0 (.ok (.bigInt (n : Int) :: rest))] ++ lt⟩) ∧
      packCalls lt =
        (List.range n).map (fun (j : Nat) => ("products", [AbiValue.bigInt ((j : Int) + 1)])) ∧
      (callOutcomes lt).map Prod.fst =
        (List.range n).filterMap (fun (j : Nat) => productsMsg lib g ((j : Int) + 1)) ∧
      lt.length ≤ 3 * n ∧
      wr.statusCode = 200 ∧
      wr.body =
        [.json (.arr (((callOutcomes lt).filterMap (entryOf lib g)).map Product.toJson))] ∧
      ((callOutcomes lt).filterMap (entryOf lib g)).length ≤ n ∧
      ((∀ j : Nat, j < n → (productsMsg lib g ((j : Int) + 1)).isSome = true) →
        (∀ c ∈ callOutcomes lt, (entryOf lib g c).isSome = true) →
        ((callOutcomes lt).filterMap (entryOf lib g)).length = n) := by
  have htotal : bigInt64 (n : Int) = (n : Int) := bigInt64_of_range _ (by omega) (by omega)
  rw [productsHandler_after_count lib g wd wd0 w r fuel data0 res0 n rest hp hc hu, htotal]
  have hws : (w.headerSet "Content-Type" "application/json").status = none := hw
  by_cases h0 : n = 0
  · subst h0
    simp only [Nat.cast_zero, if_true]
    refine ⟨_, [], wd0, rfl, rfl, rfl, by simp, encodeProducts_statusCode _ _ hws, ?_,
      by simp [callOutcomes], fun _ _ => rfl⟩
    rw [encodeProducts_body]; simp [headerSet_body, hb, callOutcomes]
  · have hne : ¬ ((n : Int) = 0) := by omega
    simp only [hne, if_false]
    obtain ⟨rl, st1, hrun⟩ := productsLoop_returns lib n hn fuel 1 []
      ⟨g, wd0, [.pack "productCount" [] (.ok data0),
        .callContract ⟨g.fromAddr, some g.contract, none, data0⟩ (.ok res0),
        .unpack "productCount" res0 (.ok (.bigInt (n : Int) :: rest))]⟩ (by omega) (by omega)
    obtain ⟨k, lt, wd1, hst, hpc, hco, hlen, hk, hr, hsome⟩ :=
      productsLoop_shape lib n hn fuel 1 [] _ rl st1 (by omega) hrun
    rcases hr with hr | ⟨hr, hkn⟩
    · exact absurd hr (hsome hty)
    have hkn2 : k = n := by omega
    subst hkn2
    rw [hrun, hr, hst]
    have hidx : indices 1 k = (List.range k).map (fun (j : Nat) => (j : Int) + 1) := by
      rw [indices_eq_range]
      apply List.map_congr_left
      intro j _
      omega
    have hlen2 : ((callOutcomes lt).filterMap (entryOf lib g)).length ≤ k := by
      calc ((callOutcomes lt).filterMap (entryOf lib g)).length
          ≤ (callOutcomes lt).length := List.length_filterMap_le _ _
        _ = ((callOutcomes lt).map Prod.fst).length := (List.length_map _ _).symm
        _ ≤ (indices 1 k).length := by rw [hco]; exact List.length_filterMap_le _ _
        _ = k := by rw [hidx]; simp
    refine ⟨_, lt, wd1, rfl, ?_, ?_, hlen, encodeProducts_statusCode _ _ hws, ?_, hlen2, ?_⟩
    · rw [hpc, hidx, List.map_map]; rfl
    · rw [hco, hidx, List.filterMap_map]; rfl
    · rw [encodeProducts_body]; simp [headerSet_body, hb]
    · intro hall hentries
      rw [length_filterMap_of_isSome _ _ hentries, ← List.length_map (callOutcomes lt) Prod.fst, hco, hidx,
        List.filterMap_map, length_filterMap_of_isSome]
      · simp
      · intro j hj
        exact hall j (List.mem_range.mp hj)


theorem productsHandler_lists_products_witness :
    ∃ wr lt wd1,
      productsHandler demoLib 3 demoWriter demoProducts ⟨demoGlobals, 0, []⟩ =
        some (.done wr, ⟨demoGlobals, wd1,
          [.pack "productCount" [] (.ok [12]),
           .callContract ⟨demoGlobals.fromAddr, some demoGlobals.contract, none, [12]⟩
             (.ok [12]),
           .unpack "productCount" [12] (.ok (.bigInt ((2 : Nat) : Int) :: []))] ++ lt⟩) ∧
      packCalls lt =
        (List.range 2).map (fun (j : Nat) => ("products", [AbiValue.bigInt ((j : Int) + 1)])) ∧
      (callOutcomes lt).map Prod.fst =
        (List.range 2).filterMap
          (fun (j : Nat) => productsMsg demoLib demoGlobals ((j : Int) + 1)) ∧
      lt.length ≤ 3 * 2 ∧
      wr.statusCode = 200 ∧
      wr.body =
        [.json (.arr (((callOutcomes lt).filterMap
          (entryOf demoLib demoGlobals)).map Product.toJson))] ∧
      ((callOutcomes lt).filterMap (entryOf demoLib demoGlobals)).length ≤ 2 ∧
      ((∀ j : Nat, j < 2 → (productsMsg demoLib demoGlobals ((j : Int) + 1)).isSome = true) →
        (∀ c ∈ callOutcomes lt, (entryOf demoLib demoGlobals c).isSome = true) →
        ((callOutcomes lt).filterMap (entryOf demoLib demoGlobals)).length = 2) :=
  productsHandler_lists_products demoLib demoGlobals 0 1 demoWriter demoProducts 3 [12] [12] 2
    [] rfl rfl rfl rfl rfl (by decide)
    (by
      intro data out h hlen
      simp [demoLib] at h
      subst h
      rfl)
    (by decide)

/-- C4 as stated fails at `n = 2^63 - 1`: with a contract that reports that count (and a
library whose calls all succeed), the loop counter wraps after the last index and the
handler produces no response, whatever the fuel. -/
theorem productsHandler_maxInt64_no_response :
    demoLibHuge.Pack demoGlobals.parsedABI "productCount" [] = .ok [12] ∧
    demoLibHuge.CallContract demoGlobals.client
      ⟨demoGlobals.fromAddr, some demoGlobals.contract, none, [12]⟩ 0 = (.ok [12], 1) ∧
    demoLibHuge.Unpack demoGlobals.parsedABI "productCount" [12] =
      .ok [.bigInt 9223372036854775807] ∧
    (0 : Int) ≤ 9223372036854775807 ∧ (9223372036854775807 : Int) < 2 ^ 63 ∧
    ¬ ∃ fuel : Nat,
      (productsHandler demoLibHuge fuel demoWriter demoProducts
        ⟨demoGlobals, 0, []⟩).isSome = true := by
  refine ⟨rfl, rfl, rfl, by decide, by decide, ?_⟩
  rintro ⟨fuel, h⟩
  have hty : UnpackTyped demoLibHuge demoGlobals.parsedABI := by
    intro data out h hlen
    simp [demoLibHuge] at h
    subst h
    rfl
  rw [productsHandler_after_count demoLibHuge demoGlobals 0 1 demoWriter demoProducts fuel
    [12] [12] 9223372036854775807 [] rfl rfl rfl] at h
  have h64 : bigInt64 9223372036854775807 = 2 ^ 63 - 1 := by decide
  rw [h64] at h
  rw [productsLoop_diverges demoLibHuge demoGlobals.parsedABI hty fuel 1 [] _ rfl
    (by decide) (by decide)] at h
  simp at h

/-- C2 as stated fails: with a node that fails the `products(2)` call, the log of the run
contains a failed library call and the response has status 200. -/
theorem productsHandler_failed_call_status :
    (productsHandler demoLibSecondFails 3 demoWriter demoProducts ⟨demoGlobals, 0, []⟩).map
      (fun x => (x.1.statusCode, x.2.trace.any Event.failed)) = some (some 200, true) ∧
    (200 : Nat) ≠ 500 := by
  decide

/-- C2, amended: when `Pack`, `CallContract` or `Unpack` for `productCount` returns an
error (or `Unpack` returns no value) the response has status 500.  When that stage succeeds
and the count is a `*big.Int`, no error of a `products(i)` call is propagated: every
response the handler produces has status 200, and it does produce one, given fuel for the
loop tests, whenever the count as an `int64` is below `2^63 - 1` and no type assertion
fails. -/
theorem productsHandler_status (lib : Lib W) (g : Globals) (wd : W) (w : ResponseWriter)
    (r : Request) (hw : w.status = none) :
    (ProductCountFails lib g wd → ∀ fuel : Nat, ∃ wr st1,
      productsHandler lib fuel w r ⟨g, wd, []⟩ = some (.done wr, st1) ∧
        wr.statusCode = 500) ∧
    (∀ (data0 res0 : Bytes) (wd0 : W) (c : Int) (rest : List AbiValue),
      lib.Pack g.parsedABI "productCount" [] = .ok data0 →
      lib.CallContract g.client ⟨g.fromAddr, some g.contract, none, data0⟩ wd =
        (.ok res0, wd0) →
      lib.Unpack g.parsedABI "productCount" res0 = .ok (.bigInt c :: rest) →
      (∀ (fuel : Nat) (wr : ResponseWriter) (st1 : St W),
        productsHandler lib fuel w r ⟨g, wd, []⟩ = some (.done wr, st1) →
          wr.statusCode = 200) ∧
      (bigInt64 c < 2 ^ 63 - 1 → UnpackTyped lib g.parsedABI → ∀ fuel : Nat,
        (bigInt64 c).toNat + 1 ≤ fuel →
        ∃ wr st1, productsHandler lib fuel w r ⟨g, wd, []⟩ = some (.done wr, st1))) := by
  have hws : (w.headerSet "Content-Type" "application/json").status = none := hw
  constructor
  · intro hfail fuel
    unfold ProductCountFails at hfail
    rcases hp : lib.Pack g.parsedABI "productCount" [] with data0 | e
    swap
    · simp only [productsHandler, doPack, hp, St.log]
      exact ⟨_, _, rfl, httpError_statusCode _ _ _ hw⟩
    rw [hp] at hfail
    simp only at hfail
    rcases hc : lib.CallContract g.client ⟨g.fromAddr, some g.contract, none, data0⟩ wd
      with ⟨rc, wd0⟩
    rw [hc] at hfail
    rcases rc with res0 | e
    swap
    · simp only [productsHandler, doPack, hp, St.log, doCallContract, hc]
      exact ⟨_, _, rfl, httpError_statusCode _ _ _ hw⟩
    simp only at hfail
    rcases hu : lib.Unpack g.parsedABI "productCount" res0 with count | e
    swap
    · simp only [productsHandler, doPack, hp, St.log, doCallContract, hc, doUnpack, hu]
      exact ⟨_, _, rfl, httpError_statusCode _ _ _ hw⟩
    rw [hu] at hfail
    rcases count with _ | ⟨v, rest⟩
    · simp only [productsHandler, doPack, hp, St.log, doCallContract, hc, doUnpack, hu]
      exact ⟨_, _, rfl, httpError_statusCode _ _ _ hw⟩
    · exact absurd hfail (by simp)
  · intro data0 res0 wd0 c rest hp hc hu
    constructor
    · intro fuel wr st1 hrun
      rw [productsHandler_after_count lib g wd wd0 w r fuel data0 res0 c rest hp hc hu] at hrun
      by_cases h0 : bigInt64 c = 0
      · simp only [h0, if_true, Option.some.injEq, Prod.mk.injEq, Outcome.done.injEq] at hrun
        rw [← hrun.1]
        exact encodeProducts_statusCode _ _ hws
      · simp only [h0, if_false] at hrun
        split at hrun
        · cases hrun
        · simp at hrun
        · simp only [Option.some.injEq, Prod.mk.injEq, Outcome.done.injEq] at hrun
          rw [← hrun.1]
          exact encodeProducts_statusCode _ _ hws
    · intro hlt hty fuel hfuel
      rw [productsHandler_after_count lib g wd wd0 w r fuel data0 res0 c rest hp hc hu]
      by_cases h0 : bigInt64 c = 0
      · simp only [h0, if_true]
        exact ⟨_, _, rfl⟩
      · simp only [h0, if_false]
        obtain ⟨rl, st1, hrun⟩ := productsLoop_returns lib (bigInt64 c) hlt fuel 1 []
          ⟨g, wd0, [.pack "productCount" [] (.ok data0),
            .callContract ⟨g.fromAddr, some g.contract, none, data0⟩ (.ok res0),
            .unpack "productCount" res0 (.ok (.bigInt c :: rest))]⟩ (by omega) (by omega)
        obtain ⟨k, lt, wd1, hst, -, -, -, -, -, hsome⟩ :=
          productsLoop_shape lib (bigInt64 c) hlt fuel 1 [] _ rl st1 (by omega) hrun
        rw [hrun]
        rcases rl with _ | ps
        · exact absurd rfl (hsome hty)
        · exact ⟨_, _, rfl⟩


theorem productsHandler_status_witness :
    ∃ wr st1,
      productsHandler demoLibSecondFails 3 demoWriter demoProducts ⟨demoGlobals, 0, []⟩ =
        some (.done wr, st1) ∧ wr.statusCode = 200 :=
  have h := (productsHandler_status demoLibSecondFails demoGlobals 0 demoWriter demoProducts
    rfl).2 [12] [12] 1 2 [] rfl rfl rfl
  match h.2 (by decide) (by
      intro data out hu hlen
      simp [demoLibSecondFails, demoLib] at hu
      subst hu
      rfl) 3 (by decide) with
  | ⟨wr, st1, hrun⟩ => ⟨wr, st1, hrun, h.1 3 wr st1 hrun⟩

/-! ### Both handlers -/

theorem purchaseHandler_trace_nil (lib : Lib W) (w : ResponseWriter) (r : Request) (st : St W)
    (h : r.Method = "OPTIONS" ∨ (∃ e, lib.DecodeReq r.Body = .error e) ∨
      ∃ req, lib.DecodeReq r.Body = .ok req ∧ bigSetString10 req.Amount = none) :
    (purchaseHandler lib w r st).2 = st := by
  rcases h with h | ⟨e, he⟩ | ⟨req, hreq, hamt⟩
  · simp only [purchaseHandler, h, if_true]
  · by_cases hm : r.Method = "OPTIONS"
    · simp only [purchaseHandler, hm, if_true]
    · simp only [purchaseHandler, hm, if_false, he]
  · by_cases hm : r.Method = "OPTIONS"
    · simp only [purchaseHandler, hm, if_true]
    · simp only [purchaseHandler, hm, if_false, hreq, hamt]

/-- C5 as stated fails in two places.  With a contract that reports `2^63 - 1` products the
loop counter wraps after the last index: the loop `productsHandler` then runs, followed for
`2^64 + 1` passes from the state after the `productCount` stage, has packed `products(1)`
twice and sent its message with `CallContract` twice.  And with an ABI value whose `Pack`
fails for `productCount`, the handler returns without any `CallContract` call. -/
theorem productsHandler_wrapped_counter_calls_again :
    demoLibHuge.Pack demoGlobals.parsedABI "productCount" [] = .ok [12] ∧
    demoLibHuge.CallContract demoGlobals.client
      ⟨demoGlobals.fromAddr, some demoGlobals.contract, none, [12]⟩ 0 = (.ok [12], 1) ∧
    demoLibHuge.Unpack demoGlobals.parsedABI "productCount" [12] =
      .ok [.bigInt 9223372036854775807] ∧
    bigInt64 9223372036854775807 = 2 ^ 63 - 1 ∧
    2 ≤ (packCalls (productsLoopLog demoLibHuge (2 ^ 63 - 1) 18446744073709551617 1 []
        ⟨demoGlobals, 1,
          [.pack "productCount" [] (.ok [12]),
           .callContract ⟨demoGlobals.fromAddr, some demoGlobals.contract, none, [12]⟩
             (.ok [12]),
           .unpack "productCount" [12] (.ok [.bigInt 9223372036854775807])]⟩).trace).count
        ("products", [.bigInt 1]) ∧
    2 ≤ ((callOutcomes (productsLoopLog demoLibHuge (2 ^ 63 - 1) 18446744073709551617 1 []
        ⟨demoGlobals, 1,
          [.pack "productCount" [] (.ok [12]),
           .callContract ⟨demoGlobals.fromAddr, some demoGlobals.contract, none, [12]⟩
             (.ok [12]),
           .unpack "productCount" [12] (.ok [.bigInt 9223372036854775807])]⟩).trace).map
        Prod.fst).count
        ⟨demoGlobals.fromAddr, some demoGlobals.contract, none, [8, 1]⟩ ∧
    (productsHandler demoLibNoCount 3 demoWriter demoProducts ⟨demoGlobals, 0, []⟩).map
      (fun x => (callOutcomes x.2.trace).length) = some 0 := by
  have hty : UnpackTyped demoLibHuge demoGlobals.parsedABI := by
    intro data out h hlen
    simp [demoLibHuge] at h
    subst h
    rfl
  obtain ⟨lt, wd1, hst, hpc, hco⟩ := productsLoopLog_wrapped demoLibHuge demoGlobals.parsedABI
    hty 18446744073709551617 1 []
    ⟨demoGlobals, 1,
      [.pack "productCount" [] (.ok [12]),
       .callContract ⟨demoGlobals.fromAddr, some demoGlobals.contract, none, [12]⟩ (.ok [12]),
       .unpack "productCount" [12] (.ok [.bigInt 9223372036854775807])]⟩
    rfl (by decide) (by decide)
  have hsub : List.Sublist [0, 18446744073709551616] (List.range 18446744073709551617) :=
    sublist_range_ends 18446744073709551615
  have hw0 : wrapInt64 (1 + ((0 : Nat) : Int)) = 1 := by decide
  have hw1 : wrapInt64 (1 + ((18446744073709551616 : Nat) : Int)) = 1 := by decide
  have hm1 : productsMsg demoLibHuge demoGlobals 1 =
      some ⟨demoGlobals.fromAddr, some demoGlobals.contract, none, [8, 1]⟩ := rfl
  refine ⟨rfl, rfl, rfl, by decide, ?_, ?_, by decide⟩
  · rw [hst]
    simp only [packCalls_append, hpc]
    have h2 := (hsub.map (fun (j : Nat) =>
      ("products", [AbiValue.bigInt (wrapInt64 (1 + (j : Int)))]))).count_le
      ("products", [AbiValue.bigInt 1])
    simp only [List.map_cons, List.map_nil, hw0, hw1, List.count_cons_self,
      List.count_nil] at h2
    rw [List.count_append]
    omega
  · rw [hst]
    simp only [callOutcomes_append, List.map_append, hco]
    have h2 := (hsub.filterMap (fun (j : Nat) =>
      productsMsg demoLibHuge demoGlobals (wrapInt64 (1 + (j : Int))))).count_le
      ⟨demoGlobals.fromAddr, some demoGlobals.contract, none, [8, 1]⟩
    simp only [List.filterMap_cons, List.filterMap_nil, hw0, hw1, hm1, List.count_cons_self,
      List.count_nil] at h2
    rw [List.count_append]
    omega


/-- C5, amended: no handler retries a library call or writes the package-level variables.
In the log of any run of `purchaseHandler` each of `SendTransaction`, `PendingNonceAt`,
`SuggestGasPrice`, `EstimateGas` and `NetworkID` occurs at most once, and the globals are
returned as received.  For `productsHandler`, whenever the count that `productCount`
returned is not `2^63 - 1` as an `int64`: in the log of a run that ends (in a response or
in a panic) the `Pack` calls are `productCount` followed by `products(1), ..., products(k)`
for some `k`, each once, and the `CallContract` calls are, in the same order, one for each
of those `Pack` calls that succeeded, carrying its data, so `CallContract` is invoked for
`productCount` at most once (once when its `Pack` succeeded) and at most once per index;
the globals are returned as received.  And the run does end, given fuel for `2^63` loop
tests, unless the `productCount` stage succeeded with count `2^63 - 1`. -/
theorem handlers_no_retry (lib : Lib W) (g : Globals) (wd : W) (w : ResponseWriter)
    (r : Request) :
    ((purchaseHandler lib w r ⟨g, wd, []⟩).2.globals = g ∧
      (purchaseHandler lib w r ⟨g, wd, []⟩).2.trace.countP Event.isSendTransaction ≤ 1 ∧
      (purchaseHandler lib w r ⟨g, wd, []⟩).2.trace.countP Event.isPendingNonceAt ≤ 1 ∧
      (purchaseHandler lib w r ⟨g, wd, []⟩).2.trace.countP Event.isSuggestGasPrice ≤ 1 ∧
      (purchaseHandler lib w r ⟨g, wd, []⟩).2.trace.countP Event.isEstimateGas ≤ 1 ∧
      (purchaseHandler lib w r ⟨g, wd, []⟩).2.trace.countP Event.isNetworkID ≤ 1) ∧
    (∀ (fuel : Nat) (out : Outcome) (st1 : St W),
      productsHandler lib fuel w r ⟨g, wd, []⟩ = some (out, st1) →
      (loggedCount st1.trace).map bigInt64 ≠ some (2 ^ 63 - 1) →
      st1.globals = g ∧
      ∃ k : Nat,
        packCalls st1.trace = ("productCount", []) ::
          (List.range k).map
            (fun (j : Nat) => ("products", [AbiValue.bigInt ((j : Int) + 1)])) ∧
        (callOutcomes st1.trace).map Prod.fst =
          (packCalls st1.trace).filterMap (msgOfPack lib g) ∧
        (packCalls st1.trace).Nodup) ∧
    (∀ fuel : Nat, 2 ^ 63 ≤ fuel →
      (∃ out st1, productsHandler lib fuel w r ⟨g, wd, []⟩ = some (out, st1)) ∨
      ∃ (data0 res0 : Bytes) (wd0 : W) (c : Int) (rest : List AbiValue),
        lib.Pack g.parsedABI "productCount" [] = .ok data0 ∧
        lib.CallContract g.client ⟨g.fromAddr, some g.contract, none, data0⟩ wd =
          (.ok res0, wd0) ∧
        lib.Unpack g.parsedABI "productCount" res0 = .ok (.bigInt c :: rest) ∧
        bigInt64 c = 2 ^ 63 - 1) := by
  refine ⟨?_, ?_, ?_⟩
  · by_cases hm : r.Method = "OPTIONS"
    · rw [purchaseHandler_trace_nil lib w r _ (Or.inl hm)]; simp
    rcases hdec : lib.DecodeReq r.Body with req | e
    swap
    · rw [purchaseHandler_trace_nil lib w r _ (Or.inr (Or.inl ⟨e, hdec⟩))]; simp
    rcases hamt : bigSetString10 req.Amount with _ | amount
    · rw [purchaseHandler_trace_nil lib w r _ (Or.inr (Or.inr ⟨req, hdec, hamt⟩))]; simp
    obtain ⟨out, tr, wd1, heq, hsh⟩ := purchaseHandler_shape lib g wd w r req amount hm hdec hamt
    rw [heq]
    simp only [PurchaseShape] at hsh
    rcases hsh with ⟨e, rfl, rfl⟩ | ⟨data, p, rfl, ⟨e, rfl, rfl⟩ | ⟨nonce, n, rfl,
      ⟨e, rfl, rfl⟩ | ⟨gasPrice, rg, s, eg, rfl, rfl, ⟨e, rfl, rfl⟩ | ⟨chainID, c, tx, rfl, rfl,
      ⟨hch, rfl, rfl⟩ | ⟨hch, ⟨e, rfl, rfl⟩ | ⟨signedTx, sg, rfl,
      ⟨e, rfl, rfl⟩ | ⟨rfl, rfl⟩⟩⟩⟩⟩⟩⟩
    all_goals
      simp [List.countP_cons, Event.isSendTransaction, Event.isPendingNonceAt,
        Event.isSuggestGasPrice, Event.isEstimateGas, Event.isNetworkID]
  · intro fuel out st1 hrun hcount
    have hnodup : ∀ k : Nat, (("productCount", ([] : List AbiValue)) ::
        (List.range k).map
          (fun (j : Nat) => ("products", [AbiValue.bigInt ((j : Int) + 1)]))).Nodup := by
      intro k
      rw [List.nodup_cons]
      constructor
      · simp
      · apply List.Nodup.map _ (List.nodup_range k)
        intro a b hab
        simp only [Prod.mk.injEq, List.cons.injEq, AbiValue.bigInt.injEq, and_true,
          true_and] at hab
        omega
    rcases hp : lib.Pack g.parsedABI "productCount" [] with data0 | e
    swap
    · simp only [productsHandler, doPack, hp, St.log, Option.some.injEq, Prod.mk.injEq] at hrun
      obtain ⟨-, rfl⟩ := hrun
      refine ⟨rfl, 0, by simp [packCalls], ?_, by simp [packCalls]⟩
      simp [packCalls, callOutcomes, msgOfPack, hp]
    rcases hc : lib.CallContract g.client ⟨g.fromAddr, some g.contract, none, data0⟩ wd
      with ⟨rc, wd0⟩
    rcases rc with res0 | e
    swap
    · simp only [productsHandler, doPack, hp, St.log, doCallContract, hc, Option.some.injEq,
        Prod.mk.injEq] at hrun
      obtain ⟨-, rfl⟩ := hrun
      refine ⟨rfl, 0, by simp [packCalls], ?_, by simp [packCalls]⟩
      simp [packCalls, callOutcomes, msgOfPack, hp]
    rcases hu : lib.Unpack g.parsedABI "productCount" res0 with count | e
    swap
    · simp only [productsHandler, doPack, hp, St.log, doCallContract, hc, doUnpack, hu,
        Option.some.injEq, Prod.mk.injEq] at hrun
      obtain ⟨-, rfl⟩ := hrun
      refine ⟨rfl, 0, by simp [packCalls], ?_, by simp [packCalls]⟩
      simp [packCalls, callOutcomes, msgOfPack, hp]
    rcases count with _ | ⟨v, rest⟩
    · simp only [productsHandler, doPack, hp, St.log, doCallContract, hc, doUnpack, hu,
        Option.some.injEq, Prod.mk.injEq] at hrun
      obtain ⟨-, rfl⟩ := hrun
      refine ⟨rfl, 0, by simp [packCalls], ?_, by simp [packCalls]⟩
      simp [packCalls, callOutcomes, msgOfPack, hp]
    have hnotbig : (∀ c, v ≠ .bigInt c) → st1.globals = g ∧ ∃ k : Nat,
        packCalls st1.trace = ("productCount", []) ::
          (List.range k).map
            (fun (j : Nat) => ("products", [AbiValue.bigInt ((j : Int) + 1)])) ∧
        (callOutcomes st1.trace).map Prod.fst =
          (packCalls st1.trace).filterMap (msgOfPack lib g) ∧
        (packCalls st1.trace).Nodup := by
      intro hv
      have hst : st1 = ⟨g, wd0, [.pack "productCount" [] (.ok data0),
          .callContract ⟨g.fromAddr, some g.contract, none, data0⟩ (.ok res0),
          .unpack "productCount" res0 (.ok (v :: rest))]⟩ := by
        cases v
        · exact absurd rfl (hv _)
        all_goals
          simp only [productsHandler, doPack, hp, St.log, doCallContract, hc, doUnpack, hu,
            Option.some.injEq, Prod.mk.injEq] at hrun
          exact hrun.2.symm
      subst hst
      refine ⟨rfl, 0, by simp [packCalls], ?_, by simp [packCalls]⟩
      simp [packCalls, callOutcomes, msgOfPack, hp]
    rcases v with c | a | s | u | b
    case address => exact hnotbig (fun c h => by cases h)
    case str => exact hnotbig (fun c h => by cases h)
    case uint8 => exact hnotbig (fun c h => by cases h)
    case bool => exact hnotbig (fun c h => by cases h)
    rw [productsHandler_after_count lib g wd wd0 w r fuel data0 res0 c rest hp hc hu] at hrun
    by_cases h0 : bigInt64 c = 0
    · simp only [h0, if_true, Option.some.injEq, Prod.mk.injEq] at hrun
      obtain ⟨-, rfl⟩ := hrun
      refine ⟨rfl, 0, by simp [packCalls], ?_, by simp [packCalls]⟩
      simp [packCalls, callOutcomes, msgOfPack, hp]
    simp only [h0, if_false] at hrun
    rcases hloop : productsLoop lib (bigInt64 c) fuel 1 []
        ⟨g, wd0, [.pack "productCount" [] (.ok data0),
          .callContract ⟨g.fromAddr, some g.contract, none, data0⟩ (.ok res0),
          .unpack "productCount" res0 (.ok (.bigInt c :: rest))]⟩ with _ | ⟨rl, st4⟩
    · rw [hloop] at hrun; cases hrun
    rw [hloop] at hrun
    have hst14 : st1 = st4 := by
      rcases rl with _ | ps
      · simp only [Option.some.injEq, Prod.mk.injEq] at hrun; exact hrun.2.symm
      · simp only [Option.some.injEq, Prod.mk.injEq] at hrun; exact hrun.2.symm
    subst hst14
    have hlt : bigInt64 c < 2 ^ 63 - 1 := by
      have hr := (bigInt64_range c).2
      have hne : bigInt64 c ≠ 2 ^ 63 - 1 := by
        intro hmax
        obtain ⟨lt, hlt⟩ := productsLoop_trace_extends lib (bigInt64 c) fuel 1 [] _ rl st1 hloop
        apply hcount
        rw [hlt, loggedCount_after_count, Option.map_some', hmax]
      omega
    obtain ⟨k, lt, wd1, hst, hpc, hco, -, -, -, -⟩ :=
      productsLoop_shape lib (bigInt64 c) hlt fuel 1 [] _ rl st1 (by omega) hloop
    have hidx : indices 1 k = (List.range k).map (fun (j : Nat) => (j : Int) + 1) := by
      rw [indices_eq_range]
      apply List.map_congr_left
      intro j _
      omega
    have hpcs : packCalls st1.trace = ("productCount", []) ::
        (List.range k).map
          (fun (j : Nat) => ("products", [AbiValue.bigInt ((j : Int) + 1)])) := by
      rw [hst]
      simp only [packCalls_append, hpc, hidx, List.map_map]
      rfl
    refine ⟨by rw [hst], k, hpcs, ?_, hpcs ▸ hnodup k⟩
    rw [hpcs, hst]
    simp only [callOutcomes_append, List.map_append, hco, hidx, List.filterMap_map,
      filterMap_cons_toList]
    simp [callOutcomes, msgOfPack, hp, productsMsg, Function.comp_def]
  · intro fuel hfuel
    rcases hp : lib.Pack g.parsedABI "productCount" [] with data0 | e
    swap
    · left
      simp only [productsHandler, doPack, hp, St.log]
      exact ⟨_, _, rfl⟩
    rcases hc : lib.CallContract g.client ⟨g.fromAddr, some g.contract, none, data0⟩ wd
      with ⟨rc, wd0⟩
    rcases rc with res0 | e
    swap
    · left
      simp only [productsHandler, doPack, hp, St.log, doCallContract, hc]
      exact ⟨_, _, rfl⟩
    rcases hu : lib.Unpack g.parsedABI "productCount" res0 with count | e
    swap
    · left
      simp only [productsHandler, doPack, hp, St.log, doCallContract, hc, doUnpack, hu]
      exact ⟨_, _, rfl⟩
    rcases count with _ | ⟨v, rest⟩
    · left
      simp only [productsHandler, doPack, hp, St.log, doCallContract, hc, doUnpack, hu]
      exact ⟨_, _, rfl⟩
    rcases v with c | a | s | u | b
    case address =>
      left
      simp only [productsHandler, doPack, hp, St.log, doCallContract, hc, doUnpack, hu]
      exact ⟨_, _, rfl⟩
    case str =>
      left
      simp only [productsHandler, doPack, hp, St.log, doCallContract, hc, doUnpack, hu]
      exact ⟨_, _, rfl⟩
    case uint8 =>
      left
      simp only [productsHandler, doPack, hp, St.log, doCallContract, hc, doUnpack, hu]
      exact ⟨_, _, rfl⟩
    case bool =>
      left
      simp only [productsHandler, doPack, hp, St.log, doCallContract, hc, doUnpack, hu]
      exact ⟨_, _, rfl⟩
    by_cases hmax : bigInt64 c = 2 ^ 63 - 1
    · exact Or.inr ⟨data0, res0, wd0, c, rest, rfl, hc, hu, hmax⟩
    left
    have hlt : bigInt64 c < 2 ^ 63 - 1 := by
      have hr := (bigInt64_range c).2
      omega
    rw [productsHandler_after_count lib g wd wd0 w r fuel data0 res0 c rest hp hc hu]
    by_cases h0 : bigInt64 c = 0
    · simp only [h0, if_true]
      exact ⟨_, _, rfl⟩
    simp only [h0, if_false]
    obtain ⟨rl, st1, hrun⟩ := productsLoop_returns lib (bigInt64 c) hlt fuel 1 []
      ⟨g, wd0, [.pack "productCount" [] (.ok data0),
        .callContract ⟨g.fromAddr, some g.contract, none, data0⟩ (.ok res0),
        .unpack "productCount" res0 (.ok (.bigInt c :: rest))]⟩ (by omega) (by omega)
    rw [hrun]
    rcases rl with _ | ps
    · exact ⟨_, _, rfl⟩
    · exact ⟨_, _, rfl⟩

theorem handlers_no_retry_witness :
    demoRun.2.globals = demoGlobals ∧
    ∃ k : Nat,
      packCalls demoRun.2.trace = ("productCount", []) ::
        (List.range k).map
          (fun (j : Nat) => ("products", [AbiValue.bigInt ((j : Int) + 1)])) ∧
      (callOutcomes demoRun.2.trace).map Prod.fst =
        (packCalls demoRun.2.trace).filterMap (msgOfPack demoLib demoGlobals) ∧
      (packCalls demoRun.2.trace).Nodup :=
  (handlers_no_retry demoLib demoGlobals 0 demoWriter demoProducts).2.1 3 demoRun.1 demoRun.2
    rfl (by decide)

/-! ### The field order -/

/-- C7: the ABI declares for `products` exactly the seven outputs id, seller, name,
description, price, status, buyer of types uint256, address, string, string, uint256,
uint8, address; `ProductRaw` lists the same fields in the same order, in the Go types the
library uses for those ABI types, and `Product` lists them again with the ABI names as
JSON keys; and a pass of the loop whose call unpacks to such a 7-tuple with
`0 ≤ id < 2^63` appends the `Product` with ID the id, Seller and Buyer the hex of the two
addresses, Name, Description and Status the third, fourth and sixth value and Price the
decimal numeral of the fifth, which `SetString(_, 10)` parses back to the same number. -/
theorem products_field_order (lib : Lib W) (i : Int) (ps : List Product) (st : St W)
    (data res : Bytes) (wd1 : W) (id price : Int) (seller buyer : Address)
    (name description : String) (status : Nat)
    (hid0 : 0 ≤ id) (hid : id < 2 ^ 63)
    (hp : lib.Pack st.globals.parsedABI "products" [.bigInt i] = .ok data)
    (hc : lib.CallContract st.globals.client
      ⟨st.globals.fromAddr, some st.globals.contract, none, data⟩ st.world = (.ok res, wd1))
    (hres : res.length ≠ 0)
    (hu : lib.Unpack st.globals.parsedABI "products" res =
      .ok [.bigInt id, .address seller, .str name, .str description, .bigInt price,
        .uint8 status, .address buyer]) :
    (contractABI.method "products").map (fun e => e.outputs.map (fun a => (a.name, a.type))) =
      some [("id", .uint256), ("seller", .address), ("name", .string),
        ("description", .string), ("price", .uint256), ("status", .uint8),
        ("buyer", .address)] ∧
    ProductRaw.fields.map Prod.fst =
      ["ID", "Seller", "Name", "Description", "Price", "Status", "Buyer"] ∧
    (contractABI.method "products").map (fun e => e.outputs.map (fun a => a.type.goType)) =
      some (ProductRaw.fields.map Prod.snd) ∧
    Product.fields.map (fun f => f.1) = ProductRaw.fields.map Prod.fst ∧
    (contractABI.method "products").map (fun e => e.outputs.map (fun a => a.name)) =
      some (Product.fields.map (fun f => f.2.2)) ∧
    decodeProduct lib [.bigInt id, .address seller, .str name, .str description,
        .bigInt price, .uint8 status, .address buyer] =
      some ⟨id, lib.AddressHex seller, name, description, bigString price, status,
        lib.AddressHex buyer⟩ ∧
    (productsBody lib i ps st).1 =
      some (ps ++ [⟨id, lib.AddressHex seller, name, description, bigString price, status,
        lib.AddressHex buyer⟩]) ∧
    bigSetString10 (bigString price) = some price := by
  have hdec : decodeProduct lib [.bigInt id, .address seller, .str name, .str description,
        .bigInt price, .uint8 status, .address buyer] =
      some ⟨id, lib.AddressHex seller, name, description, bigString price, status,
        lib.AddressHex buyer⟩ := by
    simp only [decodeProduct, bigInt64_of_range id hid0 hid]
  refine ⟨by decide, by decide, by decide, by decide, by decide, hdec, ?_,
    bigSetString10_bigString price⟩
  obtain ⟨g, wd, tr⟩ := st
  simp only [productsBody, doPack, hp, St.log, doCallContract, hc, hres, if_false, doUnpack,
    hu, hdec, List.length_cons, List.length_nil]
  rfl

theorem products_field_order_witness :
    (productsBody demoLib 1 [] ⟨demoGlobals, 0, []⟩).1 =
      some ([] ++ [⟨1, demoLib.AddressHex 21, "pen", "a pen", bigString 1000, 0,
        demoLib.AddressHex 0⟩]) ∧
    bigSetString10 (bigString 1000) = some 1000 :=
  have h := products_field_order demoLib 1 [] ⟨demoGlobals, 0, []⟩ [8, 1] [8, 1] 1 1 1000 21 0
    "pen" "a pen" 0 (by decide) (by decide) rfl rfl (by decide) rfl
  ⟨h.2.2.2.2.2.2.1, h.2.2.2.2.2.2.2⟩

end Shop
